import Mathlib

/-!
Verification of the streaming session and error-recovery engine of the
friday-cli repository.

The definitions below are shallow embeddings of:
  * the chunked event-stream decoder inside `AgentCoreService.chatStream`
    (src/unnamed/part_004, lines 343-460),
  * the error classifier / recovery policy in
    `src/src/utils/streamingHelpers.ts` (`StreamErrorHandler`,
    `RetryManager.calculateDelay`),
  * the transcript state reducer in `src/src/context/AppContext.tsx`
    (`appReducer`, `initialState`),
  * the stream-finalisation control flow of
    `src/src/hooks/useStreamingSession.ts` (`startStream`).

Machine text is modelled as `List Char`; wall-clock times as `Nat`
(milliseconds); `Math.random()` draws as rationals in `[0,1)`.
-/

/-! ## JSON values and a model of `JSON.parse`

The decoder calls `JSON.parse` on event payloads.  We model JSON values and
a recursive-descent parser for the fragment the protocol exchanges: objects,
arrays, strings (with the common escapes; `\u` escapes are outside the
modelled fragment and are rejected), integers (fractional and exponent
numbers are outside the modelled fragment and are rejected), `true`,
`false`, `null`.  Key facts used by the claims: which payloads parse at
all, and the values of top-level fields. -/

inductive JsonVal where
  | null : JsonVal
  | bool (b : Bool) : JsonVal
  | num (n : Int) : JsonVal
  | str (s : String) : JsonVal
  | arr (elems : List JsonVal) : JsonVal
  | obj (fields : List (String × JsonVal)) : JsonVal

/-- JavaScript truthiness of a JSON value (`undefined` is handled by
`Option` at use sites). -/
def jsTruthy : JsonVal → Bool
  | .null => false
  | .bool b => b
  | .num n => n != 0
  | .str s => s != ""
  | .arr _ => true
  | .obj _ => true

/-- JavaScript `a || b` on possibly-undefined JSON values: the first operand
if truthy, otherwise the second. -/
def jsOr (a b : Option JsonVal) : Option JsonVal :=
  match a with
  | some v => if jsTruthy v then some v else b
  | none => b

/-- Property access `obj.k` on a parsed value: `undefined` (`none`) unless
the value is an object carrying the key.  JavaScript object semantics keep
the last duplicate key, hence the reversed lookup. -/
def JsonVal.getField : JsonVal → String → Option JsonVal
  | .obj fields, k => (fields.reverse.find? (fun p => p.1 = k)).map (fun p => p.2)
  | _, _ => none

def isJsonWs (c : Char) : Bool :=
  c = ' ' || c = '\t' || c = '\n' || c = '\r'

def skipWs : List Char → List Char
  | [] => []
  | c :: rest => if isJsonWs c then skipWs rest else c :: rest

def isDigitChar (c : Char) : Bool :=
  '0' ≤ c && c ≤ '9'

def digitsToNat (acc : Nat) : List Char → Nat
  | [] => acc
  | c :: rest => digitsToNat (acc * 10 + (c.toNat - '0'.toNat)) rest

/-- Parse the body of a JSON string literal (after the opening quote),
returning the decoded string and the remainder after the closing quote. -/
def parseStringBody (acc : List Char) : List Char → Option (String × List Char)
  | [] => none
  | '"' :: rest => some (String.mk acc.reverse, rest)
  | '\\' :: rest =>
    match rest with
    | [] => none
    | e :: rest2 =>
      if e = '"' then parseStringBody ('"' :: acc) rest2
      else if e = '\\' then parseStringBody ('\\' :: acc) rest2
      else if e = '/' then parseStringBody ('/' :: acc) rest2
      else if e = 'n' then parseStringBody ('\n' :: acc) rest2
      else if e = 't' then parseStringBody ('\t' :: acc) rest2
      else if e = 'r' then parseStringBody ('\r' :: acc) rest2
      else if e = 'b' then parseStringBody (Char.ofNat 8 :: acc) rest2
      else if e = 'f' then parseStringBody (Char.ofNat 12 :: acc) rest2
      else none
  | c :: rest => parseStringBody (c :: acc) rest

/-- Parsing jobs: a single value, the items of an array after `[`, or the
fields of an object after `{` (non-empty cases). -/
inductive PJob where
  | val : PJob
  | items (acc : List JsonVal) : PJob
  | fields (acc : List (String × JsonVal)) : PJob

inductive PRes where
  | val (v : JsonVal) : PRes
  | items (l : List JsonVal) : PRes
  | fields (l : List (String × JsonVal)) : PRes

def parseNum : List Char → Option (JsonVal × List Char) := fun s =>
  let (neg, s1) := match s with
    | '-' :: rest => (true, rest)
    | _ => (false, s)
  let ds := s1.takeWhile isDigitChar
  let rest := s1.dropWhile isDigitChar
  if ds = [] then none
  else
    match rest with
    | '.' :: _ => none
    | 'e' :: _ => none
    | 'E' :: _ => none
    | _ =>
      let n : Int := digitsToNat 0 ds
      some (.num (if neg then -n else n), rest)

def parseGo : Nat → PJob → List Char → Option (PRes × List Char)
  | 0, _, _ => none
  | fuel + 1, .val, s =>
    match skipWs s with
    | '"' :: rest => (parseStringBody [] rest).map (fun p => (.val (.str p.1), p.2))
    | 't' :: 'r' :: 'u' :: 'e' :: rest => some (.val (.bool true), rest)
    | 'f' :: 'a' :: 'l' :: 's' :: 'e' :: rest => some (.val (.bool false), rest)
    | 'n' :: 'u' :: 'l' :: 'l' :: rest => some (.val .null, rest)
    | '[' :: rest =>
      (match skipWs rest with
       | ']' :: r2 => some (.val (.arr []), r2)
       | s2 =>
         match parseGo fuel (.items []) s2 with
         | some (.items l, r2) => some (.val (.arr l), r2)
         | _ => none)
    | '\x7b' :: rest =>
      (match skipWs rest with
       | '\x7d' :: r2 => some (.val (.obj []), r2)
       | s2 =>
         match parseGo fuel (.fields []) s2 with
         | some (.fields l, r2) => some (.val (.obj l), r2)
         | _ => none)
    | s1 => (parseNum s1).map (fun p => (.val p.1, p.2))
  | fuel + 1, .items acc, s =>
    match parseGo fuel .val s with
    | some (.val v, s1) =>
      (match skipWs s1 with
       | ',' :: r2 => parseGo fuel (.items (acc ++ [v])) r2
       | ']' :: r2 => some (.items (acc ++ [v]), r2)
       | _ => none)
    | _ => none
  | fuel + 1, .fields acc, s =>
    match skipWs s with
    | '"' :: rest =>
      (match parseStringBody [] rest with
       | some (k, s1) =>
         (match skipWs s1 with
          | ':' :: s2 =>
            (match parseGo fuel .val s2 with
             | some (.val v, s3) =>
               (match skipWs s3 with
                | ',' :: r2 => parseGo fuel (.fields (acc ++ [(k, v)])) r2
                | '\x7d' :: r2 => some (.fields (acc ++ [(k, v)]), r2)
                | _ => none)
             | _ => none)
          | _ => none)
       | none => none)
    | _ => none

/-- Model of `JSON.parse` on the modelled fragment: `none` means the call
throws. -/
def jsonParse (s : List Char) : Option JsonVal :=
  match parseGo (2 * s.length + 4) .val s with
  | some (.val v, rest) => if skipWs rest = [] then some v else none
  | _ => none

/-! ## The event-stream decoder of `AgentCoreService.chatStream`

Source: src/unnamed/part_004, lines 343-460.  Chunks are appended to a
buffer, the buffer is split on the blank-line separator `"\n\n"`, every
complete block is processed in order and the trailing partial block is kept.
A block can yield zero, one or (in the error case, whose deliberate `throw`
inside the `try` is caught by that `try`'s own bare `catch`) two events, and
can end the generator: `[DONE]` and a `complete` event return normally, an
`error` block ends by raising. -/

inductive SseStreamResponse where
  | text (t : Option JsonVal) (metadata : Option JsonVal) : SseStreamResponse
  | status (message : Option JsonVal) (metadata : Option JsonVal) : SseStreamResponse
  | complete (fullText : Option JsonVal) (metadata : Option JsonVal) : SseStreamResponse
  | error (message : JsonVal) : SseStreamResponse

/-- How the generator stops consuming input: `[DONE]` returns, a `complete`
event returns, an `error` block raises (carrying the thrown message). -/
inductive StreamTerminal where
  | doneSignal : StreamTerminal
  | completeEnd : StreamTerminal
  | errorRaised (msg : List Char) : StreamTerminal
deriving Repr, DecidableEq

def listStartsWith : List Char → List Char → Bool
  | [], _ => true
  | _ :: _, [] => false
  | p :: ps, c :: cs => p = c && listStartsWith ps cs

/-- `message.split('\n')`. -/
def splitNl : List Char → List (List Char)
  | [] => [[]]
  | c :: rest =>
    let r := splitNl rest
    if c = '\n' then [] :: r
    else
      match r with
      | [] => [[c]]
      | h :: t => (c :: h) :: t

/-- JavaScript whitespace for `trim`; the guard `if (!message.trim())`
only needs emptiness after trimming. -/
def isJsWsOnly (s : List Char) : Bool :=
  s.all (fun c => c = ' ' || c = '\t' || c = '\n' || c = '\r'
    || c = Char.ofNat 11 || c = Char.ofNat 12)

/-- The per-line scan: `data: ` lines set the payload, `event: ` lines set
the explicit type tag; later lines overwrite earlier ones. -/
def scanLines (lines : List (List Char)) : List Char × List Char :=
  lines.foldl
    (fun acc line =>
      if listStartsWith ("data: ".toList) line then (line.drop 6, acc.2)
      else if listStartsWith ("event: ".toList) line then (acc.1, line.drop 7)
      else acc)
    ([], [])

/-- The implicit type tag: when no `event:` line was seen and the payload is
non-empty, `JSON.parse(data).type` is consulted; a non-string or missing
`type` (or a parse failure) leaves the tag empty, which is observably
identical to the source's `parsed.type || ''` since the tag is only ever
compared against the literal tags afterwards. -/
def implicitTag (data : List Char) : List Char :=
  match jsonParse data with
  | some v =>
    match v.getField "type" with
    | some (.str s) => s.toList
    | _ => []
  | none => []

def chatErrPrefix : List Char := "Chat stream error: ".toList

/-- Processing of one complete block, mirroring the body of
`for (const message of messages)` (part_004 lines 362-453).  Returns the
yielded events and, when the block stops the generator, the terminal. -/
def processBlock (msg : List Char) : List SseStreamResponse × Option StreamTerminal :=
  if isJsWsOnly msg then ([], none)
  else
    let scanned := scanLines (splitNl msg)
    let data := scanned.1
    let eventType := if scanned.2 = [] && data != [] then implicitTag data else scanned.2
    if data = "keep-alive".toList || data = [] then ([], none)
    else if eventType = "error".toList then
      match jsonParse data with
      | some v =>
        let m := match v.getField "message" with
          | some mv => if jsTruthy mv then mv else .str "Chat stream error"
          | none => .str "Chat stream error"
        ([.error m, .error (.str "Chat stream error")],
          some (.errorRaised (chatErrPrefix ++ data)))
      | none =>
        ([.error (.str "Chat stream error")],
          some (.errorRaised (chatErrPrefix ++ data)))
    else if data = "[DONE]".toList then ([], some .doneSignal)
    else
      match jsonParse data with
      | some v =>
        let meta := v.getField "metadata"
        if eventType = "text".toList then
          ([.text (jsOr (v.getField "data") (jsOr (v.getField "content") (v.getField "text"))) meta], none)
        else if eventType = "status".toList then
          ([.status (jsOr (v.getField "message") (v.getField "status")) meta], none)
        else if eventType = "complete".toList then
          ([.complete (v.getField "fullText") meta], some .completeEnd)
        else ([], none)
      | none => ([], none)

/-- First occurrence of the blank-line separator `"\n\n"`: the part before
it and the part after it, mirroring the leftmost split of
`buffer.split('\n\n')`. -/
def findSep : List Char → Option (List Char × List Char)
  | [] => none
  | a :: rest =>
    if a = '\n' ∧ rest.head? = some '\n' then some ([], rest.tail)
    else (findSep rest).map (fun p => (a :: p.1, p.2))

/-- Decoder state: events yielded so far, the retained buffer, and the
terminal once the generator has stopped.  The buffer is cleared on a
terminal since it is never read again. -/
structure DecState where
  events : List SseStreamResponse
  buffer : List Char
  term : Option StreamTerminal

/-- Drain every complete block out of the buffer, stopping early at a
terminal block; fuel-indexed so that the definition is structural. -/
def drainFuel : Nat → DecState → DecState
  | 0, st => st
  | fuel + 1, st =>
    match findSep st.buffer with
    | none => st
    | some (blk, rest) =>
      match processBlock blk with
      | (evs, some t) => { events := st.events ++ evs, buffer := [], term := some t }
      | (evs, none) => drainFuel fuel { events := st.events ++ evs, buffer := rest, term := st.term }

/-- One iteration of the read loop: append the chunk to the buffer and
process every complete block.  Once the generator has stopped, no further
chunk is read. -/
def readChunk (st : DecState) (chunk : List Char) : DecState :=
  if st.term.isSome then st
  else drainFuel (st.buffer.length + chunk.length + 1) { st with buffer := st.buffer ++ chunk }

def initialDecState : DecState := { events := [], buffer := [], term := none }

/-- The whole decode of a chunk sequence; a final `term = none` is the
normal end of the transport (a trailing partial block is dropped). -/
def runDecoder (chunks : List (List Char)) : DecState :=
  chunks.foldl readChunk initialDecState

/-! ## Error classifier and recovery policy

Source: `src/src/utils/streamingHelpers.ts`.  `StreamErrorHandler` keeps two
mutable per-key maps (`errorCounts`, `circuitBreakers`); we thread them as
explicit state.  `Date.now()` is passed in as `now` (milliseconds). -/

inductive ErrorType where
  | network | authentication | rate_limit | server_error | timeout | abort | unknown
deriving Repr, DecidableEq

inductive StreamRecoveryAction where
  | retry | reauthenticate | backoff | circuit_break | fallback | fail
deriving Repr, DecidableEq

def asciiLower (c : Char) : Char :=
  if 'A' ≤ c ∧ c ≤ 'Z' then Char.ofNat (c.toNat + 32) else c

def lowerList (s : List Char) : List Char := s.map asciiLower

def containsSub (needle : List Char) : List Char → Bool
  | [] => needle.isEmpty
  | c :: rest => listStartsWith needle (c :: rest) || containsSub needle rest

/-- `StreamErrorHandler.categorizeError` (streamingHelpers.ts lines 49-75):
purely textual classification over the lowercased name and message. -/
def categorizeError (name message : String) : ErrorType :=
  let msg := lowerList message.toList
  let nm := lowerList name.toList
  if nm = "aborterror".toList || containsSub "abort".toList msg then .abort
  else if nm = "timeouterror".toList || containsSub "timeout".toList msg then .timeout
  else if containsSub "network".toList msg || containsSub "fetch".toList msg
      || containsSub "connection".toList msg then .network
  else if containsSub "401".toList msg || containsSub "unauthorized".toList msg
      || containsSub "forbidden".toList msg then .authentication
  else if containsSub "429".toList msg || containsSub "rate limit".toList msg
      || containsSub "too many".toList msg then .rate_limit
  else if containsSub "5".toList msg && (containsSub "server".toList msg
      || containsSub "internal".toList msg) then .server_error
  else .unknown

def isRegexWs (c : Char) : Bool :=
  c = ' ' || c = '\t' || c = '\n' || c = '\r' || c = Char.ofNat 11 || c = Char.ofNat 12

/-- Consume `pat` case-insensitively from the front of `s`. -/
def dropCi : List Char → List Char → Option (List Char)
  | [], s => some s
  | _ :: _, [] => none
  | p :: ps, c :: cs => if asciiLower c = asciiLower p then dropCi ps cs else none

/-- One attempted match of the regex `/retry[- ]after[:\s](\d+)/i` at the
head of `s`: exactly one `-` or space between `retry` and `after`, exactly
one `:` or whitespace character before the digit run. -/
def matchRetryAfterAt (s : List Char) : Option Nat :=
  match dropCi "retry".toList s with
  | none => none
  | some s1 =>
    match s1 with
    | [] => none
    | c :: s2 =>
      if c = '-' || c = ' ' then
        match dropCi "after".toList s2 with
        | none => none
        | some s3 =>
          match s3 with
          | [] => none
          | d :: s4 =>
            if d = ':' || isRegexWs d then
              let ds := s4.takeWhile isDigitChar
              if ds = [] then none else some (digitsToNat 0 ds)
            else none
      else none

/-- Leftmost match of `/retry[- ]after[:\s](\d+)/i` over the message. -/
def extractRetryAfter : List Char → Option Nat
  | [] => none
  | c :: rest =>
    match matchRetryAfterAt (c :: rest) with
    | some n => some n
    | none => extractRetryAfter rest

/-- `StreamErrorHandler.isRetryable` (lines 100-116). -/
def isRetryable : ErrorType → Bool
  | .network => true
  | .timeout => true
  | .server_error => true
  | .rate_limit => true
  | .authentication => false
  | .abort => false
  | .unknown => false

/-- The `retryAfter` field set by `createStreamError` (lines 77-97): only a
`rate_limit` failure attempts the regex extraction; the captured seconds are
converted to milliseconds. -/
def streamErrorRetryAfter (name message : String) : Option Nat :=
  if categorizeError name message = .rate_limit then
    (extractRetryAfter message.toList).map (fun n => n * 1000)
  else none

structure CircuitBreakerState where
  isOpen : Bool
  lastFailure : Nat
  failureCount : Nat
  nextRetryTime : Nat
deriving Repr, DecidableEq

/-- `this.circuitBreakerTimeout` (60s). -/
def circuitBreakerTimeout : Nat := 60000

/-- `this.maxFailuresBeforeBreak`. -/
def maxFailuresBeforeBreak : Nat := 5

/-- `DEFAULT_RETRY_CONFIG` (lines 36-42). -/
structure RetryConfig where
  maxRetries : Nat
  baseDelay : Nat
  maxDelay : Nat
  backoffMultiplier : Nat
  jitterFactor : ℚ

def DEFAULT_RETRY_CONFIG : RetryConfig :=
  { maxRetries := 3, baseDelay := 1000, maxDelay := 30000,
    backoffMultiplier := 2, jitterFactor := 1 / 10 }

/-- Association-list model of a JS `Map`: `set` replaces in place or
appends, `delete` removes the key, lookup finds the (unique) binding. -/
def alSet {α : Type} : List (String × α) → String → α → List (String × α)
  | [], k, v => [(k, v)]
  | (k0, v0) :: rest, k, v =>
    if k0 = k then (k, v) :: rest else (k0, v0) :: alSet rest k v

def alLookup {α : Type} (l : List (String × α)) (k : String) : Option α :=
  (l.find? (fun p => p.1 = k)).map (fun p => p.2)

def alDelete {α : Type} (l : List (String × α)) (k : String) : List (String × α) :=
  l.filter (fun p => p.1 != k)

/-- `StreamErrorHandler.isCircuitOpen` (lines 156-167).  The JS method
mutates the breaker record through the map's shared reference when it
half-opens, so the possibly-updated record is returned alongside the
verdict. -/
def isCircuitOpenUpd (cb : CircuitBreakerState) (now : Nat) : Bool × CircuitBreakerState :=
  if !cb.isOpen then (false, cb)
  else if cb.nextRetryTime ≤ now then (false, { cb with isOpen := false })
  else (true, cb)

/-- `StreamErrorHandler.updateCircuitBreaker` (lines 169-192). -/
def updateCircuitBreaker (cbs : List (String × CircuitBreakerState)) (streamId : String)
    (now : Nat) : List (String × CircuitBreakerState) :=
  let cb := match alLookup cbs streamId with
    | none => { isOpen := false, lastFailure := now, failureCount := 1, nextRetryTime := 0 }
    | some c => { c with failureCount := c.failureCount + 1, lastFailure := now }
  let cb2 := if maxFailuresBeforeBreak ≤ cb.failureCount then
      { cb with isOpen := true, nextRetryTime := now + circuitBreakerTimeout }
    else cb
  alSet cbs streamId cb2

structure HandlerState where
  errorCounts : List (String × Nat)
  circuitBreakers : List (String × CircuitBreakerState)
deriving Repr, DecidableEq

def emptyHandlerState : HandlerState := { errorCounts := [], circuitBreakers := [] }

/-- `StreamErrorHandler.handleStreamError` (lines 116-154): bump the per-key
error count, consult (and possibly half-open) the circuit breaker — an open
breaker short-circuits to `circuit_break` before the kind switch — then
record the failure in the breaker and decide by error kind using the count
read before the bump. -/
def handleStreamError (errName errMsg streamId : String) (now : Nat)
    (st : HandlerState) : StreamRecoveryAction × HandlerState :=
  let errorType := categorizeError errName errMsg
  let errorCount := (alLookup st.errorCounts streamId).getD 0
  let st1 : HandlerState :=
    { st with errorCounts := alSet st.errorCounts streamId (errorCount + 1) }
  let checked : Bool × HandlerState :=
    match alLookup st1.circuitBreakers streamId with
    | some cb =>
      let r := isCircuitOpenUpd cb now
      (r.1, { st1 with circuitBreakers := alSet st1.circuitBreakers streamId r.2 })
    | none => (false, st1)
  if checked.1 then (.circuit_break, checked.2)
  else
    let st2 : HandlerState :=
      { checked.2 with
        circuitBreakers := updateCircuitBreaker checked.2.circuitBreakers streamId now }
    let act : StreamRecoveryAction :=
      match errorType with
      | .network => if errorCount < DEFAULT_RETRY_CONFIG.maxRetries then .retry else .circuit_break
      | .timeout => if errorCount < DEFAULT_RETRY_CONFIG.maxRetries then .retry else .circuit_break
      | .authentication => .reauthenticate
      | .rate_limit => .backoff
      | .server_error => if errorCount < 2 then .retry else .fallback
      | .abort => .fail
      | .unknown => .fail
    (act, st2)

/-- `RetryManager.calculateDelay` (lines 213-225) with the default config:
a truthy (non-zero) server retry-after is returned verbatim; otherwise
exponential backoff capped at `maxDelay` plus non-negative jitter
`cappedDelay * jitterFactor * Math.random()`, floored.  The `Math.random()`
draw is the parameter `rand ∈ [0,1)`. -/
def calculateDelay (attempt : Nat) (retryAfter : Option Nat) (rand : ℚ) : Int :=
  let backoff : Int :=
    let exponentialDelay : ℚ :=
      (DEFAULT_RETRY_CONFIG.baseDelay : ℚ) * (DEFAULT_RETRY_CONFIG.backoffMultiplier : ℚ) ^ attempt
    let cappedDelay : ℚ := min exponentialDelay (DEFAULT_RETRY_CONFIG.maxDelay : ℚ)
    let jitter : ℚ := cappedDelay * DEFAULT_RETRY_CONFIG.jitterFactor * rand
    Int.floor (cappedDelay + jitter)
  match retryAfter with
  | some ra => if ra = 0 then backoff else (ra : Int)
  | none => backoff

/-! ## Transcript state reducer

Source: `src/src/context/AppContext.tsx` (`initialState`, `appReducer`) and
the message/state types of `src/src/types.ts`.  The TypeScript
`ChatMessage` union is modelled as one flat structure discriminated by its
`type` tag; fields a variant does not carry stay at their defaults.
`crypto.randomUUID()` and `new Date()` inside the `START_STREAMING` case
are ambient inputs and are carried on the action. -/

inductive Mode where
  | text | voice | thinking
deriving Repr, DecidableEq

def modes : List Mode := [.text, .voice, .thinking]

inductive MsgType where
  | user | system | action | auth | streaming
deriving Repr, DecidableEq

inductive StreamKind where
  | thinking | response | connection
deriving Repr, DecidableEq

inductive ConnStatus where
  | connecting | connected | streaming | stopped | error | disconnected
deriving Repr, DecidableEq

structure ChatMessage where
  id : String
  type : MsgType
  streamingType : Option StreamKind := none
  content : String
  partialContent : String := ""
  timestamp : Nat := 0
  canStop : Bool := false
  isComplete : Bool := false
  color : Option String := none
deriving Repr, DecidableEq

structure StreamingSession where
  id : String
  type : StreamKind
  messageId : String
  startTime : Nat
deriving Repr, DecidableEq

structure StreamingState where
  activeStreams : List (String × StreamingSession)
  connectionStatus : ConnStatus
  canStop : Bool
  isInitialized : Bool
deriving Repr, DecidableEq

structure UserInfo where
  id : String
  email : String
  name : String
  picture : Option String := none
deriving Repr, DecidableEq

structure AuthState where
  isAuthenticated : Bool
  isLoading : Bool
  error : Option String
  user : Option UserInfo
  token : Option String
deriving Repr, DecidableEq

structure AppState where
  currentMode : Mode
  chatHistory : List ChatMessage
  currentInput : String
  streaming : StreamingState
  commandHistory : List String
  historyIndex : Int
  auth : AuthState
  isAuthenticated : Bool
  userInfo : Option UserInfo
deriving Repr, DecidableEq

/-- `initialState` (AppContext.tsx lines 25-47). -/
def initialState : AppState :=
  { currentMode := .text
    chatHistory := []
    currentInput := ""
    streaming :=
      { activeStreams := []
        connectionStatus := .disconnected
        canStop := false
        isInitialized := false }
    commandHistory := []
    historyIndex := -1
    auth :=
      { isAuthenticated := false
        isLoading := false
        error := none
        user := none
        token := none }
    isAuthenticated := false
    userInfo := none }

inductive AppAction where
  | setMode (m : Mode)
  | switchMode
  | addMessage (msg : ChatMessage)
  | clearHistory
  | setCurrentInput (s : String)
  | addToCommandHistory (s : String)
  | navigateHistory (up : Bool)
  | startStreaming (kind : StreamKind) (messageId : String) (freshId : String) (now : Nat)
  | updateStreamingContent (messageId : String) (partialContent : String)
  | completeStreaming (messageId : String) (finalContent : Option String)
  | stopStreaming (messageId : String)
  | removeStreamingMessages (ids : List String)
  | setConnectionStatus (s : ConnStatus)
  | initializeChatComplete (b : Bool)
  | setAuthLoading (b : Bool)
  | setAuthError (e : Option String)
  | setAuthSuccess (user : Option UserInfo) (token : String)
  | clearAuth
  | setAuthenticated (b : Bool)
  | setUserInfo (u : Option UserInfo)
deriving Repr, DecidableEq

/-- JavaScript `a || b` for an optional string against a default:
`finalContent || msg.partialContent` treats the empty string as falsy. -/
def jsOrString (a : Option String) (b : String) : String :=
  match a with
  | some s => if s = "" then b else s
  | none => b

/-- `state.commandHistory[i] || ''`: out-of-range access is `undefined`,
and `|| ''` maps it (and an empty stored string) to `''`. -/
def jsIndexStr (l : List String) (i : Int) : String :=
  if 0 ≤ i ∧ i < (l.length : Int) then l.getD i.toNat "" else ""

/-- `appReducer` (AppContext.tsx lines 91-381), case by case. -/
def appReducer (state : AppState) (action : AppAction) : AppState :=
  match action with
  | .setMode m => { state with currentMode := m }
  | .switchMode =>
    let currentIndex := modes.indexOf state.currentMode
    let nextIndex := (currentIndex + 1) % modes.length
    { state with currentMode := modes.getD nextIndex .text }
  | .addMessage msg =>
    let newHistory := state.chatHistory ++ [msg]
    let trimmedHistory :=
      if 100 < newHistory.length then newHistory.drop (newHistory.length - 100)
      else newHistory
    { state with chatHistory := trimmedHistory }
  | .clearHistory => { state with chatHistory := [] }
  | .setCurrentInput s => { state with currentInput := s }
  | .addToCommandHistory s =>
    let newCommandHistory := state.commandHistory ++ [s]
    let trimmedCommands :=
      if 50 < newCommandHistory.length then
        newCommandHistory.drop (newCommandHistory.length - 50)
      else newCommandHistory
    { state with commandHistory := trimmedCommands, historyIndex := -1 }
  | .navigateHistory up =>
    if up ∧ 0 < state.commandHistory.length then
      let newIndex := min (state.historyIndex + 1) ((state.commandHistory.length : Int) - 1)
      let command := jsIndexStr state.commandHistory ((state.commandHistory.length : Int) - 1 - newIndex)
      { state with historyIndex := newIndex, currentInput := command }
    else if !up then
      if 0 < state.historyIndex then
        let newIndex := state.historyIndex - 1
        let command := jsIndexStr state.commandHistory ((state.commandHistory.length : Int) - 1 - newIndex)
        { state with historyIndex := newIndex, currentInput := command }
      else { state with historyIndex := -1, currentInput := "" }
    else state
  | .startStreaming kind messageId freshId now =>
    let newActiveStreams := alSet state.streaming.activeStreams messageId
      { id := freshId, type := kind, messageId := messageId, startTime := now }
    { state with streaming :=
        { state.streaming with activeStreams := newActiveStreams, canStop := true } }
  | .updateStreamingContent messageId partialContent =>
    let updatedHistory := state.chatHistory.map (fun msg =>
      if msg.id = messageId ∧ msg.type = .streaming then
        { msg with partialContent := partialContent, content := partialContent }
      else msg)
    { state with chatHistory := updatedHistory }
  | .completeStreaming messageId finalContent =>
    let newActiveStreams := alDelete state.streaming.activeStreams messageId
    let updatedHistory := state.chatHistory.map (fun msg =>
      if msg.id = messageId ∧ msg.type = .streaming then
        { msg with
          partialContent := jsOrString finalContent msg.partialContent
          content := jsOrString finalContent msg.partialContent
          isComplete := true
          canStop := false }
      else msg)
    { state with
      chatHistory := updatedHistory
      streaming :=
        { state.streaming with
          activeStreams := newActiveStreams
          canStop := decide (0 < newActiveStreams.length) } }
  | .stopStreaming messageId =>
    -- the session's abortController.abort() is an effect on the transport,
    -- not on reducer state
    let newActiveStreams := alDelete state.streaming.activeStreams messageId
    let updatedHistory := state.chatHistory.map (fun msg =>
      if msg.id = messageId ∧ msg.type = .streaming then
        { msg with
          isComplete := true
          canStop := false
          partialContent := msg.partialContent ++ " [Stopped by user]"
          content := msg.content ++ " [Stopped by user]" }
      else msg)
    { state with
      chatHistory := updatedHistory
      streaming :=
        { state.streaming with
          activeStreams := newActiveStreams
          canStop := decide (0 < newActiveStreams.length) } }
  | .removeStreamingMessages ids =>
    let filteredHistory := state.chatHistory.filter (fun msg =>
      !(msg.type = .streaming ∧ ids.contains msg.id : Bool))
    let newActiveStreams := ids.foldl (fun acc i => alDelete acc i) state.streaming.activeStreams
    { state with
      chatHistory := filteredHistory
      streaming :=
        { state.streaming with
          activeStreams := newActiveStreams
          canStop := decide (0 < newActiveStreams.length) } }
  | .setConnectionStatus s =>
    { state with streaming := { state.streaming with connectionStatus := s } }
  | .initializeChatComplete b =>
    { state with streaming := { state.streaming with isInitialized := b } }
  | .setAuthLoading b =>
    { state with auth := { state.auth with isLoading := b, error := none } }
  | .setAuthError e =>
    { state with
      auth := { state.auth with
        isLoading := false, error := e, isAuthenticated := false,
        user := none, token := none }
      isAuthenticated := false
      userInfo := none }
  | .setAuthSuccess user token =>
    { state with
      auth :=
        { isAuthenticated := true, isLoading := false, error := none,
          user := user, token := some token }
      isAuthenticated := true
      userInfo := user }
  | .clearAuth =>
    { state with
      auth :=
        { isAuthenticated := false, isLoading := false, error := none,
          user := none, token := none }
      isAuthenticated := false
      userInfo := none }
  | .setAuthenticated b =>
    { state with
      isAuthenticated := b
      auth := { state.auth with isAuthenticated := b } }
  | .setUserInfo u =>
    { state with
      userInfo := u
      auth := { state.auth with user := u } }

/-! ## Stream finalisation in `useStreamingSession.startStream`

Source: `src/src/hooks/useStreamingSession.ts` lines 80-140 together with
the outer catch of `AgentCoreService.chatStream` (part_004 lines 462-476).
The generator's internal 30s timer aborts its own controller; the resulting
`AbortError` — whether from the timer or from the hook's external signal —
is swallowed by the generator's catch, which simply returns.  Back in
`startStream`, the consume loop therefore just ends, and the `.aborted`
flag of the hook's own controller decides between `completeStreaming` and
`stopStreaming`; only a genuinely raised error reaches the catch that
appends a system error message. -/

/-- `AgentCoreService.DEFAULT_STREAM_TIMEOUT` (part_004 line 68). -/
def DEFAULT_STREAM_TIMEOUT : Nat := 30000

/-- How a stream attempt's generator ends, as seen by the consumer. -/
inductive StreamEndKind where
  | normalEnd : StreamEndKind
  | raisedError (msg : String) : StreamEndKind
  | abortedSilent : StreamEndKind
deriving Repr, DecidableEq

/-- The generator's outer catch (part_004 lines 462-476): an `AbortError`
is swallowed and the generator returns; everything else is rethrown. -/
def chatStreamCatch (errName errMsg : String) : StreamEndKind :=
  if errName = "AbortError" then .abortedSilent else .raisedError errMsg

/-- Which dispatch `startStream` finalises the session with. -/
inductive FinalizeAction where
  | completeStreamingDispatch : FinalizeAction
  | stopStreamingDispatch : FinalizeAction
  | errorSystemMessage (m : String) : FinalizeAction
deriving Repr, DecidableEq

/-- `startStream` lines 104-140: the post-loop finalisation.
`externalAborted` is `abortController.signal.aborted` for the hook's own
controller (the one `stopStream`/`stopAllStreams` trigger); the internal
timeout timer never sets it. -/
def finalizeStream (ending : StreamEndKind) (externalAborted : Bool) : FinalizeAction :=
  match ending with
  | .raisedError m => .errorSystemMessage m
  | _ => if externalAborted then .stopStreamingDispatch else .completeStreamingDispatch

/-! ## Properties of the decoder -/

theorem findSep_append {b blk rest : List Char} (c : List Char)
    (h : findSep b = some (blk, rest)) :
    findSep (b ++ c) = some (blk, rest ++ c) := by
  induction b generalizing blk rest with
  | nil => simp [findSep] at h
  | cons a tail ih =>
    rw [findSep] at h
    by_cases hc : a = '\n' ∧ tail.head? = some '\n'
    · rw [if_pos hc] at h
      injection h with h
      injection h with h1 h2
      subst h1; subst h2
      cases tail with
      | nil => simp at hc
      | cons x t =>
        obtain ⟨ha, hx⟩ := hc
        simp only [List.head?] at hx
        injection hx with hx
        subst ha; subst hx
        simp [findSep, List.cons_append]
    · rw [if_neg hc] at h
      cases hrec : findSep tail with
      | none => rw [hrec] at h; simp at h
      | some p =>
        rw [hrec] at h
        simp only [Option.map_some'] at h
        injection h with h
        injection h with h1 h2
        subst h1; subst h2
        have htl : tail ≠ [] := by
          intro he; subst he; simp [findSep] at hrec
        have hc2 : ¬(a = '\n' ∧ (tail ++ c).head? = some '\n') := by
          intro ⟨ha, hh⟩
          apply hc
          refine ⟨ha, ?_⟩
          cases tail with
          | nil => exact absurd rfl htl
          | cons x t => simpa using hh
        rw [List.cons_append, findSep, if_neg hc2, ih hrec]
        rfl

theorem findSep_eq_decomp {b blk rest : List Char}
    (h : findSep b = some (blk, rest)) :
    b = blk ++ '\n' :: '\n' :: rest := by
  induction b generalizing blk rest with
  | nil => simp [findSep] at h
  | cons a tail ih =>
    rw [findSep] at h
    by_cases hc : a = '\n' ∧ tail.head? = some '\n'
    · rw [if_pos hc] at h
      injection h with h
      injection h with h1 h2
      subst h1; subst h2
      cases tail with
      | nil => simp at hc
      | cons x t =>
        obtain ⟨ha, hx⟩ := hc
        simp only [List.head?] at hx
        injection hx with hx
        subst ha; subst hx
        rfl
    · rw [if_neg hc] at h
      cases hrec : findSep tail with
      | none => rw [hrec] at h; simp at h
      | some p =>
        rw [hrec] at h
        simp only [Option.map_some'] at h
        injection h with h
        injection h with h1 h2
        subst h1; subst h2
        simpa using ih hrec

theorem findSep_rest_lt {b blk rest : List Char}
    (h : findSep b = some (blk, rest)) : rest.length < b.length := by
  have := findSep_eq_decomp h
  subst this
  simp
  omega

theorem findSep_none_append_sep {b : List Char} (r : List Char)
    (hn : findSep b = none) (hl : b.getLast? ≠ some '\n') :
    findSep (b ++ '\n' :: '\n' :: r) = some (b, r) := by
  induction b with
  | nil => simp [findSep]
  | cons a tail ih =>
    rw [findSep] at hn
    by_cases hc : a = '\n' ∧ tail.head? = some '\n'
    · rw [if_pos hc] at hn; simp at hn
    · rw [if_neg hc] at hn
      cases tail with
      | nil =>
        have ha : a ≠ '\n' := by
          intro he; apply hl; subst he; rfl
        simp [findSep, ha]
      | cons x t =>
        have hrec : findSep (x :: t) = none := by
          cases hr : findSep (x :: t) with
          | none => rfl
          | some p => rw [hr] at hn; simp at hn
        have hl2 : (x :: t).getLast? ≠ some '\n' := by
          intro he; apply hl
          rw [List.getLast?_cons_cons] at *
          exact he
        have := ih hrec hl2
        have hc2 : ¬(a = '\n' ∧ ((x :: t) ++ '\n' :: '\n' :: r).head? = some '\n') := by
          intro ⟨ha, hh⟩
          exact hc ⟨ha, by simpa using hh⟩
        rw [List.cons_append, findSep, if_neg hc2, this]
        rfl

/-- Fuel irrelevance for `drainFuel`: any fuel strictly above the buffer
length drains to the same state. -/
theorem drainFuel_congr : ∀ (f1 f2 : Nat) (st : DecState),
    st.buffer.length < f1 → st.buffer.length < f2 →
    drainFuel f1 st = drainFuel f2 st := by
  intro f1
  induction f1 with
  | zero => intro f2 st h1 _; omega
  | succ f1 ih =>
    intro f2 st h1 h2
    cases f2 with
    | zero => omega
    | succ f2 =>
      cases hsep : findSep st.buffer with
      | none => rw [drainFuel, drainFuel, hsep]
      | some p =>
        obtain ⟨blk, rest⟩ := p
        rcases hpb : processBlock blk with ⟨evs, t⟩
        cases t with
        | some t => simp only [drainFuel, hsep, hpb]
        | none =>
          simp only [drainFuel, hsep, hpb]
          have hlt : rest.length < st.buffer.length := findSep_rest_lt hsep
          have hb1 : rest.length < f1 := by omega
          have hb2 : rest.length < f2 := by omega
          exact ih f2 { events := st.events ++ evs, buffer := rest, term := st.term } hb1 hb2

/-- Drain with the canonical fuel. -/
def drainB (st : DecState) : DecState :=
  drainFuel (st.buffer.length + 1) st

theorem drainFuel_eq_drainB {f : Nat} {st : DecState} (h : st.buffer.length < f) :
    drainFuel f st = drainB st :=
  drainFuel_congr f (st.buffer.length + 1) st h (Nat.lt_succ_self _)

theorem readChunk_eq_drainB {st : DecState} {c : List Char} (h : st.term = none) :
    readChunk st c = drainB { st with buffer := st.buffer ++ c } := by
  rw [readChunk, if_neg (by simp [h])]
  exact drainFuel_eq_drainB (by simp)

theorem readChunk_of_stopped {st : DecState} (c : List Char) (h : st.term.isSome) :
    readChunk st c = st := by
  rw [readChunk, if_pos h]

theorem drainB_of_findSep_none {st : DecState} (h : findSep st.buffer = none) :
    drainB st = st := by
  rw [drainB, drainFuel, h]

theorem drainB_step {st : DecState} {blk rest : List Char}
    (h : findSep st.buffer = some (blk, rest)) :
    drainB st =
      match processBlock blk with
      | (evs, some t) => { events := st.events ++ evs, buffer := [], term := some t }
      | (evs, none) => drainB { events := st.events ++ evs, buffer := rest, term := st.term } := by
  have hlt : rest.length < st.buffer.length := findSep_rest_lt h
  have h1 : drainB st =
      match processBlock blk with
      | (evs, some t) => { events := st.events ++ evs, buffer := [], term := some t }
      | (evs, none) =>
        drainFuel st.buffer.length { events := st.events ++ evs, buffer := rest, term := st.term } := by
    rw [drainB, drainFuel, h]
  rw [h1]
  rcases hpb : processBlock blk with ⟨evs, t⟩
  cases t with
  | some t => rfl
  | none =>
    exact @drainFuel_eq_drainB st.buffer.length
      { events := st.events ++ evs, buffer := rest, term := st.term } hlt

/-- The heart of chunk-boundary independence: appending more input to a
state's buffer and draining is the same as draining first and then reading
the new input as a chunk. -/
theorem drainB_append_bounded : ∀ (n : Nat) (st : DecState) (c : List Char),
    st.buffer.length ≤ n → st.term = none →
    drainB { st with buffer := st.buffer ++ c } = readChunk (drainB st) c := by
  intro n
  induction n with
  | zero =>
    intro st c hn ht
    have hb : st.buffer = [] := List.length_eq_zero.mp (Nat.le_zero.mp hn)
    have hsep : findSep st.buffer = none := by rw [hb]; rfl
    rw [drainB_of_findSep_none hsep, readChunk_eq_drainB ht]
  | succ n ih =>
    intro st c hn ht
    cases hsep : findSep st.buffer with
    | none =>
      rw [drainB_of_findSep_none hsep, readChunk_eq_drainB ht]
    | some p =>
      obtain ⟨blk, rest⟩ := p
      have hsep2 : findSep (st.buffer ++ c) = some (blk, rest ++ c) := by
        have := findSep_append c hsep
        simpa using this
      have hlt : rest.length < st.buffer.length := findSep_rest_lt hsep
      rw [@drainB_step { st with buffer := st.buffer ++ c } blk (rest ++ c) hsep2,
        drainB_step hsep]
      rcases hpb : processBlock blk with ⟨evs, t⟩
      cases t with
      | some t =>
        exact (readChunk_of_stopped c (by simp)).symm
      | none =>
        simp only [ht]
        have hle : rest.length ≤ n := by omega
        exact ih { events := st.events ++ evs, buffer := rest, term := none } c hle rfl

theorem drainB_append (st : DecState) (c : List Char) (ht : st.term = none) :
    drainB { st with buffer := st.buffer ++ c } = readChunk (drainB st) c :=
  drainB_append_bounded st.buffer.length st c (Nat.le_refl _) ht

theorem readChunk_append (st : DecState) (c1 c2 : List Char) :
    readChunk st (c1 ++ c2) = readChunk (readChunk st c1) c2 := by
  by_cases ht : st.term = none
  · rw [readChunk_eq_drainB ht, readChunk_eq_drainB ht,
      show st.buffer ++ (c1 ++ c2) = (st.buffer ++ c1) ++ c2 from (List.append_assoc _ _ _).symm]
    exact drainB_append { st with buffer := st.buffer ++ c1 } c2 ht
  · have hs : st.term.isSome := Option.isSome_iff_ne_none.mpr ht
    rw [readChunk_of_stopped _ hs, readChunk_of_stopped _ hs, readChunk_of_stopped _ hs]

/-- A state between chunk reads: either stopped, or its buffer holds no
complete block. -/
def GoodSt (st : DecState) : Prop :=
  st.term = none → findSep st.buffer = none

theorem goodSt_drainB_bounded : ∀ (n : Nat) (st : DecState),
    st.buffer.length ≤ n → GoodSt (drainB st) := by
  intro n
  induction n with
  | zero =>
    intro st hn
    have hb : st.buffer = [] := List.length_eq_zero.mp (Nat.le_zero.mp hn)
    rw [drainB_of_findSep_none (by rw [hb]; rfl)]
    intro _; rw [hb]; rfl
  | succ n ih =>
    intro st hn
    cases hsep : findSep st.buffer with
    | none => rw [drainB_of_findSep_none hsep]; intro _; exact hsep
    | some p =>
      obtain ⟨blk, rest⟩ := p
      have hlt : rest.length < st.buffer.length := findSep_rest_lt hsep
      rw [drainB_step hsep]
      rcases hpb : processBlock blk with ⟨evs, t⟩
      cases t with
      | some t => intro h; simp at h
      | none =>
        have hle : rest.length ≤ n := by omega
        exact ih { events := st.events ++ evs, buffer := rest, term := st.term } hle

theorem goodSt_drainB (st : DecState) : GoodSt (drainB st) :=
  goodSt_drainB_bounded st.buffer.length st (Nat.le_refl _)

theorem goodSt_readChunk {st : DecState} (h : GoodSt st) (c : List Char) :
    GoodSt (readChunk st c) := by
  by_cases ht : st.term = none
  · rw [readChunk_eq_drainB ht]; exact goodSt_drainB _
  · rw [readChunk_of_stopped _ (Option.isSome_iff_ne_none.mpr ht)]
    exact h

theorem readChunk_nil {st : DecState} (h : GoodSt st) : readChunk st [] = st := by
  by_cases ht : st.term = none
  · rw [readChunk_eq_drainB ht]
    simpa using drainB_of_findSep_none (by simpa using h ht)
  · rw [readChunk_of_stopped _ (Option.isSome_iff_ne_none.mpr ht)]

theorem foldl_readChunk_flatten (chunks : List (List Char)) :
    ∀ (st : DecState), GoodSt st →
      chunks.foldl readChunk st = readChunk st chunks.flatten := by
  induction chunks with
  | nil => intro st h; simpa using (readChunk_nil h).symm
  | cons c cs ih =>
    intro st h
    rw [List.foldl_cons, ih _ (goodSt_readChunk h c), List.flatten_cons,
      readChunk_append]

/-- Chunk-boundary independence: decoding any chunk sequence equals
decoding its concatenation delivered as a single chunk. -/
theorem runDecoder_chunk_invariant (chunks : List (List Char)) :
    runDecoder chunks = runDecoder [chunks.flatten] := by
  rw [runDecoder, runDecoder,
    foldl_readChunk_flatten chunks initialDecState (fun _ => rfl)]
  rfl

/-- A sequence of event blocks in wire form: every block followed by the
blank-line separator. -/
def encodeBlocks (blocks : List (List Char)) : List Char :=
  (blocks.map (fun b => b ++ ['\n', '\n'])).flatten

/-- A block that yields exactly one event and does not stop the
generator (a well-formed `text` or `status` block). -/
def isSimpleBlock (b : List Char) : Bool :=
  match processBlock b with
  | ([_], none) => true
  | _ => false

/-- A well-formed non-terminal block in a position where the split
recovers it verbatim: it contains no blank-line separator of its own and
does not end in a newline (so its own trailing characters cannot merge
with the separator that follows it). -/
def goodBlock (b : List Char) : Bool :=
  (findSep b).isNone && b.getLast? != some '\n' && isSimpleBlock b

/-- A block that carries the `error` tag with a payload that parses:
processing it yields exactly two error events (the parsed one plus the
duplicate generic one from the catch) and then raises. -/
def isParsedErrorBlock (b : List Char) : Bool :=
  match processBlock b with
  | ([SseStreamResponse.error _, SseStreamResponse.error _], some (.errorRaised _)) => true
  | _ => false

def goodErrorBlock (b : List Char) : Bool :=
  (findSep b).isNone && b.getLast? != some '\n' && isParsedErrorBlock b

theorem drainB_encode : ∀ (blocks : List (List Char)) (suffix : List Char) (st : DecState),
    st.term = none → st.buffer = encodeBlocks blocks ++ suffix →
    (∀ b ∈ blocks, goodBlock b = true) →
    drainB st =
      drainB { events := st.events ++ (blocks.map (fun b => (processBlock b).1)).flatten,
               buffer := suffix, term := none } := by
  intro blocks
  induction blocks with
  | nil =>
    intro suffix st ht hb _
    have hst : st = { events := st.events, buffer := suffix, term := none } := by
      cases st with
      | mk e b t =>
        simp only at ht hb ⊢
        rw [ht, hb]
        simp [encodeBlocks]
    conv_lhs => rw [hst]
    simp
  | cons b bs ih =>
    intro suffix st ht hb hgood
    have hgb : goodBlock b = true := hgood b (List.mem_cons_self b bs)
    have hgbs : ∀ x ∈ bs, goodBlock x = true := fun x hx => hgood x (List.mem_cons_of_mem b hx)
    have hsepfree : findSep b = none := by
      have := hgb
      unfold goodBlock at this
      simp only [Bool.and_eq_true, Option.isNone_iff_eq_none] at this
      exact this.1.1
    have hlast : b.getLast? ≠ some '\n' := by
      have := hgb
      unfold goodBlock at this
      simp only [Bool.and_eq_true, bne_iff_ne, ne_eq] at this
      exact this.1.2
    have hsimple : isSimpleBlock b = true := by
      have := hgb
      unfold goodBlock at this
      simp only [Bool.and_eq_true] at this
      exact this.2
    obtain ⟨e, hpb⟩ : ∃ e, processBlock b = ([e], none) := by
      unfold isSimpleBlock at hsimple
      rcases hx : processBlock b with ⟨evs, t⟩
      rw [hx] at hsimple
      match evs, t with
      | [e], none => exact ⟨e, rfl⟩
      | [], none => simp at hsimple
      | _ :: _ :: _, none => simp at hsimple
      | _, some _ => simp at hsimple
    have hbuf : st.buffer = b ++ '\n' :: '\n' :: (encodeBlocks bs ++ suffix) := by
      rw [hb]
      simp [encodeBlocks]
    have hsep : findSep st.buffer = some (b, encodeBlocks bs ++ suffix) := by
      rw [hbuf]
      exact findSep_none_append_sep _ hsepfree hlast
    rw [drainB_step hsep, hpb]
    have hrec := ih suffix
      { events := st.events ++ [e], buffer := encodeBlocks bs ++ suffix, term := st.term }
      (by simpa using ht) (by simp) hgbs
    rw [ht] at hrec
    show drainB { events := st.events ++ [e], buffer := encodeBlocks bs ++ suffix, term := st.term } =
      drainB { events := st.events ++ (List.map (fun b => (processBlock b).1) (b :: bs)).flatten,
               buffer := suffix, term := none }
    rw [ht, hrec]
    simp [hpb]

theorem isSimpleBlock_shape {b : List Char} (h : isSimpleBlock b = true) :
    ∃ e, processBlock b = ([e], none) := by
  unfold isSimpleBlock at h
  rcases hx : processBlock b with ⟨evs, t⟩
  rw [hx] at h
  match evs, t with
  | [e], none => exact ⟨e, rfl⟩
  | [], none => simp at h
  | _ :: _ :: _, none => simp at h
  | _, some _ => simp at h

theorem isParsedErrorBlock_shape {b : List Char} (h : isParsedErrorBlock b = true) :
    ∃ m1 m2 m, processBlock b = ([.error m1, .error m2], some (.errorRaised m)) := by
  unfold isParsedErrorBlock at h
  rcases hx : processBlock b with ⟨evs, t⟩
  rw [hx] at h
  match evs, t with
  | [SseStreamResponse.error m1, SseStreamResponse.error m2], some (.errorRaised m) =>
    exact ⟨m1, m2, m, rfl⟩
  | [], _ => simp at h
  | [SseStreamResponse.error _], _ => simp at h
  | [SseStreamResponse.text _ _], _ => simp at h
  | [SseStreamResponse.status _ _], _ => simp at h
  | [SseStreamResponse.complete _ _], _ => simp at h
  | _ :: _ :: _ :: _, _ => simp at h
  | [SseStreamResponse.error _, SseStreamResponse.error _], none => simp at h
  | [SseStreamResponse.error _, SseStreamResponse.error _], some .doneSignal => simp at h
  | [SseStreamResponse.error _, SseStreamResponse.error _], some .completeEnd => simp at h
  | [_, SseStreamResponse.text _ _], _ => simp at h
  | [_, SseStreamResponse.status _ _], _ => simp at h
  | [_, SseStreamResponse.complete _ _], _ => simp at h
  | [SseStreamResponse.text _ _, _], _ => simp at h
  | [SseStreamResponse.status _ _, _], _ => simp at h
  | [SseStreamResponse.complete _ _, _], _ => simp at h

theorem goodBlock_parts {b : List Char} (h : goodBlock b = true) :
    findSep b = none ∧ b.getLast? ≠ some '\n' ∧ isSimpleBlock b = true := by
  unfold goodBlock at h
  simp only [Bool.and_eq_true, Option.isNone_iff_eq_none, bne_iff_ne, ne_eq] at h
  exact ⟨h.1.1, h.1.2, h.2⟩

theorem goodErrorBlock_parts {b : List Char} (h : goodErrorBlock b = true) :
    findSep b = none ∧ b.getLast? ≠ some '\n' ∧ isParsedErrorBlock b = true := by
  unfold goodErrorBlock at h
  simp only [Bool.and_eq_true, Option.isNone_iff_eq_none, bne_iff_ne, ne_eq] at h
  exact ⟨h.1.1, h.1.2, h.2⟩

theorem goodBlocks_events_length (blocks : List (List Char))
    (hgood : ∀ b ∈ blocks, goodBlock b = true) :
    ((blocks.map (fun b => (processBlock b).1)).flatten).length = blocks.length := by
  induction blocks with
  | nil => rfl
  | cons b bs ih =>
    obtain ⟨e, hpb⟩ := isSimpleBlock_shape (goodBlock_parts (hgood b (List.mem_cons_self b bs))).2.2
    simp only [List.map_cons, List.flatten_cons, List.length_append, List.length_cons, hpb]
    rw [ih (fun x hx => hgood x (List.mem_cons_of_mem b hx))]
    simp
    omega

theorem drainB_empty_buffer (ev : List SseStreamResponse) (t : Option StreamTerminal) :
    drainB { events := ev, buffer := [], term := t } = { events := ev, buffer := [], term := t } :=
  drainB_of_findSep_none rfl

theorem runDecoder_encodeBlocks (blocks : List (List Char))
    (hgood : ∀ b ∈ blocks, goodBlock b = true) :
    runDecoder [encodeBlocks blocks] =
      { events := (blocks.map (fun b => (processBlock b).1)).flatten,
        buffer := [], term := none } := by
  have h0 : runDecoder [encodeBlocks blocks] =
      drainB { events := [], buffer := encodeBlocks blocks, term := none } := by
    rw [runDecoder, List.foldl_cons, List.foldl_nil, readChunk_eq_drainB rfl]
    rfl
  have henc := drainB_encode blocks []
    { events := [], buffer := encodeBlocks blocks, term := none } rfl (by simp) hgood
  rw [h0, henc, drainB_empty_buffer]
  simp

theorem runDecoder_encode_error (blocks : List (List Char)) (eb : List Char)
    (hgood : ∀ b ∈ blocks, goodBlock b = true) (herr : goodErrorBlock eb = true) :
    runDecoder [encodeBlocks blocks ++ (eb ++ ['\n', '\n'])] =
      { events := (blocks.map (fun b => (processBlock b).1)).flatten ++ (processBlock eb).1,
        buffer := [], term := (processBlock eb).2 } := by
  obtain ⟨hsepfree, hlast, hpe⟩ := goodErrorBlock_parts herr
  obtain ⟨m1, m2, m, hpb⟩ := isParsedErrorBlock_shape hpe
  have h0 : runDecoder [encodeBlocks blocks ++ (eb ++ ['\n', '\n'])] =
      drainB { events := [], buffer := encodeBlocks blocks ++ (eb ++ ['\n', '\n']), term := none } := by
    rw [runDecoder, List.foldl_cons, List.foldl_nil, readChunk_eq_drainB rfl]
    rfl
  have henc := drainB_encode blocks (eb ++ ['\n', '\n'])
    { events := [], buffer := encodeBlocks blocks ++ (eb ++ ['\n', '\n']), term := none }
    rfl rfl hgood
  have hsep : findSep (eb ++ ['\n', '\n']) = some (eb, []) :=
    findSep_none_append_sep [] hsepfree hlast
  have hstep := @drainB_step
    { events := [] ++ (blocks.map (fun b => (processBlock b).1)).flatten,
      buffer := eb ++ ['\n', '\n'], term := none } eb [] hsep
  rw [h0, henc, hstep, hpb]
  simp [hpb]

/-! ## Claims about the decoder -/

def textBlockHi : List Char := "event: text\ndata: \x7b\"data\":\"Hi\"\x7d".toList

def statusBlockWorking : List Char := "event: status\ndata: \x7b\"message\":\"working\"\x7d".toList

def errorBlockBoom : List Char := "event: error\ndata: \x7b\"message\":\"boom\"\x7d".toList

/-- C1 (amended).  Chunk-boundary independence holds: the decoded event
sequence (and terminal) is the same for every way of splitting the
concatenated text into chunks.  For N well-formed one-event blocks the
decoder yields exactly N events and ends normally.  But when the blocks are
followed by a well-formed `error` block with a parseable payload, the
decoder yields N + 2 events — not N - 1 as claimed — because the error
block itself yields two events (the parsed error event plus a duplicate
generic one, the deliberate `throw` inside the `try` being caught by that
`try`'s own bare `catch`) before the decode operation raises. -/
theorem C1_chunk_boundary_independence :
    (∀ chunks : List (List Char), runDecoder chunks = runDecoder [chunks.flatten]) ∧
    (∀ blocks : List (List Char), (∀ b ∈ blocks, goodBlock b = true) →
      (runDecoder [encodeBlocks blocks]).events.length = blocks.length ∧
      (runDecoder [encodeBlocks blocks]).term = none) ∧
    (∀ (blocks : List (List Char)) (eb : List Char),
      (∀ b ∈ blocks, goodBlock b = true) → goodErrorBlock eb = true →
      (runDecoder [encodeBlocks blocks ++ (eb ++ ['\n', '\n'])]).events.length = blocks.length + 2 ∧
      ∃ m, (runDecoder [encodeBlocks blocks ++ (eb ++ ['\n', '\n'])]).term =
        some (.errorRaised m)) := by
  refine ⟨runDecoder_chunk_invariant, fun blocks hgood => ?_, fun blocks eb hgood herr => ?_⟩
  · rw [runDecoder_encodeBlocks blocks hgood]
    exact ⟨goodBlocks_events_length blocks hgood, rfl⟩
  · obtain ⟨_, _, hpe⟩ := goodErrorBlock_parts herr
    obtain ⟨m1, m2, m, hpb⟩ := isParsedErrorBlock_shape hpe
    rw [runDecoder_encode_error blocks eb hgood herr]
    refine ⟨?_, m, ?_⟩
    · simp [hpb, goodBlocks_events_length blocks hgood]
    · simp [hpb]

/-- Witness for C1: the amended theorem applied at concrete blocks — two
simple blocks decode to exactly 2 events; one simple block followed by an
error block decodes to 1 + 2 events. -/
theorem C1_chunk_boundary_independence_witness :
    (runDecoder [encodeBlocks [textBlockHi, statusBlockWorking]]).events.length = 2 ∧
    (runDecoder [encodeBlocks [textBlockHi] ++ (errorBlockBoom ++ ['\n', '\n'])]).events.length = 1 + 2 := by
  have hgood2 : ∀ b ∈ [textBlockHi, statusBlockWorking], goodBlock b = true := by
    intro b hb
    rcases List.mem_cons.mp hb with rfl | hb2
    · rfl
    · rcases List.mem_cons.mp hb2 with rfl | h3
      · rfl
      · cases h3
  have hgood1 : ∀ b ∈ [textBlockHi], goodBlock b = true := by
    intro b hb
    rcases List.mem_cons.mp hb with rfl | h2
    · rfl
    · cases h2
  exact ⟨(C1_chunk_boundary_independence.2.1 [textBlockHi, statusBlockWorking] hgood2).1,
    (C1_chunk_boundary_independence.2.2 [textBlockHi] errorBlockBoom hgood1 rfl).1⟩

/-- C1 counterexample: one well-formed error block (N = 1).  The claim
predicts N - 1 = 0 events followed by the terminal failure; the decoder
actually yields 2 events before raising. -/
theorem C1_counterexample :
    goodErrorBlock errorBlockBoom = true ∧
    (runDecoder [errorBlockBoom ++ ['\n', '\n']]).events.length = 2 ∧
    (runDecoder [errorBlockBoom ++ ['\n', '\n']]).term =
      some (.errorRaised ("Chat stream error: \x7b\"message\":\"boom\"\x7d".toList)) ∧
    (2 : Nat) ≠ 1 - 1 := by
  exact ⟨rfl, rfl, rfl, by decide⟩

/-- C2: at the failing input — an `error` block whose payload parses and
carries `message` — the decoder yields TWO events, first
`error "boom"` and then a duplicate generic `error "Chat stream error"`,
before the operation raises: the `throw` placed after the first `yield`
inside the `try` is caught by that `try`'s own bare `catch`, which yields
again.  The spec (and claim) say exactly one event is yielded before the
failure. -/
theorem C2_error_event_double_yield :
    runDecoder ["event: error\ndata: \x7b\"message\":\"boom\"\x7d\n\n".toList] =
      { events := [.error (.str "boom"), .error (.str "Chat stream error")],
        buffer := [],
        term := some (.errorRaised ("Chat stream error: \x7b\"message\":\"boom\"\x7d".toList)) } := rfl

/-! ## Properties of the error handler -/

theorem alLookup_alSet_self {α : Type} (l : List (String × α)) (k : String) (v : α) :
    alLookup (alSet l k v) k = some v := by
  induction l with
  | nil => simp [alSet, alLookup]
  | cons p rest ih =>
    obtain ⟨k0, v0⟩ := p
    by_cases h : k0 = k
    · subst h
      simp [alSet, alLookup]
    · have hd : (decide (k0 = k)) = false := by simp [h]
      simp only [alSet, if_neg h, alLookup, List.find?_cons, hd]
      simpa [alLookup] using ih

/-- Iterate `handleStreamError` with a fixed error, key and call time,
threading the handler state. -/
def handleIter : Nat → String → String → String → Nat → HandlerState → HandlerState
  | 0, _, _, _, _, st => st
  | n + 1, en, em, k, now, st =>
    handleIter n en em k now (handleStreamError en em k now st).2

/-- Five network failures for key `"k"` at time 0. -/
def netSt5 : HandlerState := handleIter 5 "Error" "network failure" "k" 0 emptyHandlerState

/-- Five authentication failures for key `"k"` at time 0. -/
def authSt5 : HandlerState := handleIter 5 "Error" "401 unauthorized" "k" 0 emptyHandlerState

/-- The circuit-breaker verdict that `handleStreamError` consults before its
kind switch. -/
def breakerVerdict (st : HandlerState) (streamId : String) (now : Nat) : Bool :=
  match alLookup st.circuitBreakers streamId with
  | some cb => (isCircuitOpenUpd cb now).1
  | none => false

/-- The decision `handleStreamError` returns factors through the breaker
verdict and the pre-bump error count. -/
theorem handleStreamError_decision (errName errMsg streamId : String) (now : Nat)
    (st : HandlerState) :
    (handleStreamError errName errMsg streamId now st).1 =
      if breakerVerdict st streamId now then .circuit_break
      else
        match categorizeError errName errMsg with
        | .network => if (alLookup st.errorCounts streamId).getD 0 < 3 then .retry else .circuit_break
        | .timeout => if (alLookup st.errorCounts streamId).getD 0 < 3 then .retry else .circuit_break
        | .authentication => .reauthenticate
        | .rate_limit => .backoff
        | .server_error => if (alLookup st.errorCounts streamId).getD 0 < 2 then .retry else .fallback
        | .abort => .fail
        | .unknown => .fail := by
  unfold handleStreamError breakerVerdict
  cases halk : alLookup st.circuitBreakers streamId with
  | none =>
    simp only [halk]
    by_cases hb : False
    · exact absurd hb (by simp)
    · simp [DEFAULT_RETRY_CONFIG]
  | some cb =>
    simp only [halk]
    by_cases hopen : (isCircuitOpenUpd cb now).1
    · simp [hopen, DEFAULT_RETRY_CONFIG]
    · simp [hopen, DEFAULT_RETRY_CONFIG]

/-- State-effect companion of `handleStreamError_decision`. -/
theorem handleStreamError_state (errName errMsg streamId : String) (now : Nat)
    (st : HandlerState) :
    (handleStreamError errName errMsg streamId now st).2 =
      (match alLookup st.circuitBreakers streamId with
       | some cb =>
         if (isCircuitOpenUpd cb now).1 then
           { errorCounts := alSet st.errorCounts streamId ((alLookup st.errorCounts streamId).getD 0 + 1)
             circuitBreakers := alSet st.circuitBreakers streamId (isCircuitOpenUpd cb now).2 }
         else
           { errorCounts := alSet st.errorCounts streamId ((alLookup st.errorCounts streamId).getD 0 + 1)
             circuitBreakers :=
               updateCircuitBreaker (alSet st.circuitBreakers streamId (isCircuitOpenUpd cb now).2)
                 streamId now }
       | none =>
         { errorCounts := alSet st.errorCounts streamId ((alLookup st.errorCounts streamId).getD 0 + 1)
           circuitBreakers := updateCircuitBreaker st.circuitBreakers streamId now }) := by
  unfold handleStreamError
  cases halk : alLookup st.circuitBreakers streamId with
  | none => simp [halk]
  | some cb =>
    by_cases hopen : (isCircuitOpenUpd cb now).1
    · simp [halk, hopen]
    · simp [halk, hopen]

/-- While a key's breaker is open and the cool-down has not elapsed, any
failure for that key — whatever its kind — is decided `circuit_break`, and
the breaker record is left as it was (in particular the deadline does not
move). -/
theorem handleStreamError_breaker_open (errName errMsg key : String) (now : Nat)
    (st : HandlerState) (cb : CircuitBreakerState)
    (hcb : alLookup st.circuitBreakers key = some cb) (hopen : cb.isOpen = true)
    (hnow : now < cb.nextRetryTime) :
    (handleStreamError errName errMsg key now st).1 = .circuit_break ∧
    alLookup (handleStreamError errName errMsg key now st).2.circuitBreakers key = some cb := by
  have hup : isCircuitOpenUpd cb now = (true, cb) := by
    unfold isCircuitOpenUpd
    rw [hopen]
    simp only [Bool.not_true, Bool.false_eq_true, if_false]
    rw [if_neg (by omega)]
  have hverdict : breakerVerdict st key now = true := by
    simp only [breakerVerdict, hcb, hup]
  constructor
  · rw [handleStreamError_decision, hverdict]
    rfl
  · rw [handleStreamError_state]
    simp only [hcb, hup, if_true]
    exact alLookup_alSet_self st.circuitBreakers key cb

/-- Recording one more failure on a key whose breaker already carries at
least 4 failures (re-)opens it with a fresh deadline `now + 60000`. -/
theorem updateCircuitBreaker_reopen (l : List (String × CircuitBreakerState)) (key : String)
    (now : Nat) (cb : CircuitBreakerState) (hcb : alLookup l key = some cb)
    (hfc : 4 ≤ cb.failureCount) :
    alLookup (updateCircuitBreaker l key now) key =
      some { isOpen := true, lastFailure := now, failureCount := cb.failureCount + 1,
             nextRetryTime := now + 60000 } := by
  unfold updateCircuitBreaker
  have hcond : maxFailuresBeforeBreak ≤ cb.failureCount + 1 := by
    unfold maxFailuresBeforeBreak
    omega
  simp only [hcb, hcond, if_true, circuitBreakerTimeout]
  exact alLookup_alSet_self l key _

/-- Once the cool-down has elapsed, the breaker check half-opens the record
(`isOpen := false`) — but for a `network`-classified failure whose key
already carries at least `maxRetries` recorded failures the kind switch
still returns `circuit_break`, never `retry`, and the breaker immediately
re-opens with a fresh 60s deadline (the failure count, never reset except
by a success, is ≥ 5 again). -/
theorem handleStreamError_halfopen_network (errName errMsg key : String) (now : Nat)
    (st : HandlerState) (cb : CircuitBreakerState)
    (hcat : categorizeError errName errMsg = .network)
    (hcb : alLookup st.circuitBreakers key = some cb) (hopen : cb.isOpen = true)
    (helapsed : cb.nextRetryTime ≤ now) (hfc : 5 ≤ cb.failureCount)
    (hcount : 3 ≤ (alLookup st.errorCounts key).getD 0) :
    (handleStreamError errName errMsg key now st).1 = .circuit_break ∧
    alLookup (handleStreamError errName errMsg key now st).2.circuitBreakers key =
      some { isOpen := true, lastFailure := now, failureCount := cb.failureCount + 1,
             nextRetryTime := now + 60000 } := by
  have hup : isCircuitOpenUpd cb now = (false, { cb with isOpen := false }) := by
    unfold isCircuitOpenUpd
    rw [hopen]
    simp only [Bool.not_true, Bool.false_eq_true, if_false]
    rw [if_pos helapsed]
  have hverdict : breakerVerdict st key now = false := by
    simp only [breakerVerdict, hcb, hup]
  constructor
  · rw [handleStreamError_decision, hverdict, hcat]
    simp only [Bool.false_eq_true, if_false]
    rw [if_neg (by omega)]
  · rw [handleStreamError_state]
    simp only [hcb, hup, Bool.false_eq_true, if_false]
    exact updateCircuitBreaker_reopen _ key now { cb with isOpen := false }
      (alLookup_alSet_self _ _ _) (show 4 ≤ cb.failureCount by omega)

/-- C3 (amended): an authentication-classified failure is decided
`reauthenticate` whenever the key's circuit breaker is not open within its
cool-down (in particular the decision is never `retry`); but when the
breaker for the key IS open, the early breaker check — which runs before
the kind switch — returns `circuit_break` even for an authentication
failure, so "always reauthenticate regardless of prior history" does not
hold. -/
theorem C3_authentication_decision :
    ∀ (errName errMsg streamId : String) (now : Nat) (st : HandlerState),
      categorizeError errName errMsg = .authentication →
      ((handleStreamError errName errMsg streamId now st).1 = .reauthenticate ∨
        (handleStreamError errName errMsg streamId now st).1 = .circuit_break) ∧
      (handleStreamError errName errMsg streamId now st).1 ≠ .retry ∧
      (breakerVerdict st streamId now = false →
        (handleStreamError errName errMsg streamId now st).1 = .reauthenticate) := by
  intro en em k now st hcat
  rw [handleStreamError_decision, hcat]
  by_cases hb : breakerVerdict st k now
  · simp [hb]
  · simp [hb]

/-- Witness for C3: a 401 failure on a fresh key is decided
`reauthenticate`. -/
theorem C3_authentication_decision_witness :
    (handleStreamError "Error" "401 unauthorized" "k" 0 emptyHandlerState).1 = .reauthenticate :=
  (C3_authentication_decision "Error" "401 unauthorized" "k" 0 emptyHandlerState rfl).2.2 rfl

/-- C3 counterexample: after five authentication failures for key `"k"` the
breaker is open, and the sixth authentication failure is decided
`circuit_break`, not `reauthenticate`. -/
theorem C3_counterexample :
    categorizeError "Error" "401 unauthorized" = .authentication ∧
    (handleStreamError "Error" "401 unauthorized" "k" 0 authSt5).1 = .circuit_break ∧
    StreamRecoveryAction.circuit_break ≠ .reauthenticate := by
  exact ⟨rfl, rfl, by decide⟩

/-- C4 (amended).  (i) After 5 `network` failures for a key at time 0, the
breaker is open with deadline 60000, and any 6th call before the deadline is
decided `circuit_break`.  (ii) While a breaker is open and the cool-down has
not elapsed, every decision for that key is `circuit_break` and the breaker
record (hence the deadline) is unchanged, so this holds for every call in
the window.  (iii) Once the cool-down has elapsed the record is half-opened,
but a `network` failure for a key with ≥ 3 recorded failures is still
decided `circuit_break` — never `retry` — and the breaker re-opens with a
fresh 60s deadline: `retry` only becomes possible again after a success
clears the key via `resetCircuitBreaker`. -/
theorem C4_circuit_breaker :
    (alLookup netSt5.circuitBreakers "k" =
      some { isOpen := true, lastFailure := 0, failureCount := 5, nextRetryTime := 60000 } ∧
     ∀ t6 : Nat, t6 < 60000 →
       (handleStreamError "Error" "network failure" "k" t6 netSt5).1 = .circuit_break) ∧
    (∀ (errName errMsg key : String) (now : Nat) (st : HandlerState) (cb : CircuitBreakerState),
      alLookup st.circuitBreakers key = some cb → cb.isOpen = true → now < cb.nextRetryTime →
      (handleStreamError errName errMsg key now st).1 = .circuit_break ∧
      alLookup (handleStreamError errName errMsg key now st).2.circuitBreakers key = some cb) ∧
    (∀ (errName errMsg key : String) (now : Nat) (st : HandlerState) (cb : CircuitBreakerState),
      categorizeError errName errMsg = .network →
      alLookup st.circuitBreakers key = some cb → cb.isOpen = true →
      cb.nextRetryTime ≤ now → 5 ≤ cb.failureCount →
      3 ≤ (alLookup st.errorCounts key).getD 0 →
      (handleStreamError errName errMsg key now st).1 = .circuit_break ∧
      (handleStreamError errName errMsg key now st).1 ≠ .retry ∧
      alLookup (handleStreamError errName errMsg key now st).2.circuitBreakers key =
        some { isOpen := true, lastFailure := now, failureCount := cb.failureCount + 1,
               nextRetryTime := now + 60000 }) := by
  refine ⟨⟨rfl, fun t6 ht6 => ?_⟩,
    fun en em k now st cb hcb ho hn => handleStreamError_breaker_open en em k now st cb hcb ho hn,
    fun en em k now st cb hcat hcb ho he hfc hcount => ?_⟩
  · exact (handleStreamError_breaker_open "Error" "network failure" "k" t6 netSt5
      { isOpen := true, lastFailure := 0, failureCount := 5, nextRetryTime := 60000 }
      rfl rfl ht6).1
  · obtain ⟨h1, h2⟩ := handleStreamError_halfopen_network en em k now st cb hcat hcb ho he hfc hcount
    exact ⟨h1, by rw [h1]; decide, h2⟩

/-- Witness for C4: the sixth network failure at time 30000 is decided
`circuit_break`; a call at exactly the deadline (60000) is still decided
`circuit_break` and re-opens the breaker with deadline 120000. -/
theorem C4_circuit_breaker_witness :
    (handleStreamError "Error" "network failure" "k" 30000 netSt5).1 = .circuit_break ∧
    (handleStreamError "Error" "network failure" "k" 60000 netSt5).1 = .circuit_break ∧
    alLookup (handleStreamError "Error" "network failure" "k" 60000 netSt5).2.circuitBreakers "k" =
      some { isOpen := true, lastFailure := 60000, failureCount := 6, nextRetryTime := 120000 } := by
  refine ⟨C4_circuit_breaker.1.2 30000 (by norm_num), ?_, ?_⟩
  · exact (C4_circuit_breaker.2.2 "Error" "network failure" "k" 60000 netSt5
      { isOpen := true, lastFailure := 0, failureCount := 5, nextRetryTime := 60000 }
      rfl rfl rfl (by norm_num) (by norm_num) (by decide)).1
  · exact (C4_circuit_breaker.2.2 "Error" "network failure" "k" 60000 netSt5
      { isOpen := true, lastFailure := 0, failureCount := 5, nextRetryTime := 60000 }
      rfl rfl rfl (by norm_num) (by norm_num) (by decide)).2.2

/-- C4 counterexample: with 5 network failures for `"k"` recorded at time 0,
the first call after the cool-down (time 60000) is decided `circuit_break`,
not `retry` — the "half-open trial" can never reach `retry` because the
per-key error count (≥ 3) survives the cool-down. -/
theorem C4_counterexample :
    (handleStreamError "Error" "network failure" "k" 60000 netSt5).1 = .circuit_break ∧
    StreamRecoveryAction.circuit_break ≠ .retry := by
  exact ⟨rfl, by decide⟩

/-! ## Properties of the backoff delay -/

theorem calculateDelay_none_eq (a : Nat) (r : ℚ) :
    calculateDelay a none r =
      ⌊min ((1000 : ℚ) * 2 ^ a) 30000 + min ((1000 : ℚ) * 2 ^ a) 30000 * (1 / 10) * r⌋ := by
  simp only [calculateDelay, DEFAULT_RETRY_CONFIG]
  norm_num

theorem min_cap_ge (a : Nat) : (1000 : ℚ) ≤ min ((1000 : ℚ) * 2 ^ a) 30000 := by
  have h2 : (1 : ℚ) ≤ 2 ^ a := one_le_pow₀ (by norm_num)
  refine le_min (by nlinarith) (by norm_num)

theorem min_cap_cast (a : Nat) :
    ((min (1000 * 2 ^ a) 30000 : ℤ) : ℚ) = min ((1000 : ℚ) * 2 ^ a) 30000 := by
  push_cast
  rfl

/-- C5: the scenario input `"rate limited, retry-after: 2"` classifies as
`rate_limit` and the decision is `backoff`, but the regex
`/retry[- ]after[:\s](\d+)/i` admits exactly ONE separator character after
"after", so the colon-plus-space form of the message does not match:
no server retry-after is extracted, and the computed delay at attempt 0 is
`floor(1000 + 100·random) ∈ [1000, 1100]` — never the claimed 2000 ms. -/
theorem C5_retry_after_not_honored :
    categorizeError "Error" "rate limited, retry-after: 2" = .rate_limit ∧
    streamErrorRetryAfter "Error" "rate limited, retry-after: 2" = none ∧
    (handleStreamError "Error" "rate limited, retry-after: 2" "k" 0 emptyHandlerState).1 = .backoff ∧
    (∀ r : ℚ, 0 ≤ r → r < 1 → calculateDelay 0 none r ≠ 2000) := by
  refine ⟨rfl, rfl, rfl, ?_⟩
  intro r hr0 hr1 hEq
  rw [calculateDelay_none_eq] at hEq
  have hmin : min ((1000 : ℚ) * 2 ^ (0 : Nat)) 30000 = 1000 := by norm_num
  rw [hmin] at hEq
  have hub : (1000 : ℚ) + 1000 * (1 / 10) * r < 1100 := by nlinarith
  have h1 : (⌊(1000 : ℚ) + 1000 * (1 / 10) * r⌋ : ℤ) < 1100 :=
    Int.floor_lt.mpr (by exact_mod_cast hub)
  omega

/-- Witness for C5: at the concrete jitter draw 0 the computed delay is not
2000 ms. -/
theorem C5_retry_after_not_honored_witness :
    calculateDelay 0 none 0 ≠ 2000 :=
  C5_retry_after_not_honored.2.2.2 0 le_rfl (by norm_num)

/-- C6 (amended): writing `C a = min(base·mult^a, maxDelay)` for the CAPPED
exponential value, the delay at attempt `a` (with no server retry-after)
always lies in `[C a, 1.1·C a]` — the claimed interval
`[base·mult^a, base·mult^a·1.1]` is only correct while the cap has not been
reached — and the delay is non-decreasing from attempt `a` to `a+1`
whenever `base·mult^a` is still within the cap. -/
theorem C6_backoff_bounds :
    (∀ (a : Nat) (r : ℚ), 0 ≤ r → r < 1 →
      min (1000 * 2 ^ a) 30000 ≤ calculateDelay a none r) ∧
    (∀ (a : Nat) (r : ℚ), 0 ≤ r → r < 1 →
      10 * calculateDelay a none r ≤ 11 * min (1000 * 2 ^ a) 30000) ∧
    (∀ (a : Nat) (r1 r2 : ℚ), 0 ≤ r1 → r1 < 1 → 0 ≤ r2 → r2 < 1 →
      (1000 * 2 ^ a : ℤ) ≤ 30000 →
      calculateDelay a none r1 ≤ calculateDelay (a + 1) none r2) := by
  have hlower : ∀ (a : Nat) (r : ℚ), 0 ≤ r → r < 1 →
      min (1000 * 2 ^ a) 30000 ≤ calculateDelay a none r := by
    intro a r hr0 _
    rw [calculateDelay_none_eq]
    apply Int.le_floor.mpr
    rw [min_cap_cast]
    have hc := min_cap_ge a
    nlinarith
  have hupper : ∀ (a : Nat) (r : ℚ), 0 ≤ r → r < 1 →
      10 * calculateDelay a none r ≤ 11 * min (1000 * 2 ^ a) 30000 := by
    intro a r hr0 hr1
    rw [calculateDelay_none_eq]
    have hfl := Int.floor_le
      (min ((1000 : ℚ) * 2 ^ a) 30000 + min ((1000 : ℚ) * 2 ^ a) 30000 * (1 / 10) * r)
    have hc := min_cap_ge a
    have : ((10 * ⌊min ((1000 : ℚ) * 2 ^ a) 30000 +
        min ((1000 : ℚ) * 2 ^ a) 30000 * (1 / 10) * r⌋ : ℤ) : ℚ) ≤
        ((11 * min (1000 * 2 ^ a) 30000 : ℤ) : ℚ) := by
      push_cast
      nlinarith [hfl, hc, hr0, hr1]
    exact_mod_cast this
  refine ⟨hlower, hupper, ?_⟩
  intro a r1 r2 hr10 hr11 hr20 hr21 hcap
  have hp1 : (1 : ℤ) ≤ 2 ^ a := one_le_pow₀ (by norm_num)
  have hpN : (2 : ℕ) ^ a ≤ 30 := by
    have : (2 : ℤ) ^ a ≤ 30 := by nlinarith
    exact_mod_cast this
  have ha4 : a ≤ 4 := by
    by_contra hgt
    push_neg at hgt
    have h32 : (2 : ℕ) ^ 5 ≤ 2 ^ a := Nat.pow_le_pow_right (by norm_num) hgt
    norm_num at h32
    linarith
  have hp16 : (2 : ℤ) ^ a ≤ 16 := by
    have : (2 : ℕ) ^ a ≤ 16 := by
      calc (2 : ℕ) ^ a ≤ 2 ^ 4 := Nat.pow_le_pow_right (by norm_num) ha4
      _ = 16 := by norm_num
    exact_mod_cast this
  have hkey : (11 : ℤ) * min (1000 * 2 ^ a) 30000 ≤ 10 * min (1000 * 2 ^ (a + 1)) 30000 := by
    simp only [pow_succ]
    generalize (2 : ℤ) ^ a = p at hp1 hp16 hcap ⊢
    omega
  have h1 := hupper a r1 hr10 hr11
  have h2 := hlower (a + 1) r2 hr20 hr21
  linarith

/-- Witness for C6: the amended bounds at attempt 0 with jitter draw 1/2,
and monotonicity from attempt 0 to 1. -/
theorem C6_backoff_bounds_witness :
    (1000 : ℤ) ≤ calculateDelay 0 none (1 / 2) ∧
    10 * calculateDelay 0 none (1 / 2) ≤ 11000 ∧
    calculateDelay 0 none (1 / 2) ≤ calculateDelay 1 none 0 := by
  have h1 := C6_backoff_bounds.1 0 (1 / 2) (by norm_num) (by norm_num)
  have h2 := C6_backoff_bounds.2.1 0 (1 / 2) (by norm_num) (by norm_num)
  have h3 := C6_backoff_bounds.2.2 0 (1 / 2) 0 (by norm_num) (by norm_num) le_rfl
    (by norm_num) (by norm_num)
  norm_num at h1 h2
  exact ⟨h1, h2, h3⟩

/-- C6 counterexample: at attempt 5 with jitter draw 0 the computed delay is
the cap 30000, strictly below the claimed lower bound
`base·mult^5 = 32000`. -/
theorem C6_counterexample :
    calculateDelay 5 none 0 = 30000 ∧ ¬ ((1000 * 2 ^ 5 : ℤ) ≤ calculateDelay 5 none 0) := by
  have h : calculateDelay 5 none 0 = 30000 := by
    norm_num [calculateDelay, DEFAULT_RETRY_CONFIG]
  refine ⟨h, ?_⟩
  rw [h]
  norm_num

/-! ## Properties of the reducer -/

/-- Does the action target the transcript entry with id `i` through one of
the three map-based streaming mutations? -/
def streamingTargets (a : AppAction) (i : String) : Bool :=
  match a with
  | .updateStreamingContent mid _ => mid == i
  | .completeStreaming mid _ => mid == i
  | .stopStreaming mid => mid == i
  | _ => false

/-- The per-entry transformation each reducer case applies to a transcript
entry (the identity for every case that does not map over the history). -/
def entryImage (a : AppAction) (m : ChatMessage) : ChatMessage :=
  match a with
  | .updateStreamingContent mid pc =>
    if m.id = mid ∧ m.type = .streaming then
      { m with partialContent := pc, content := pc }
    else m
  | .completeStreaming mid fc =>
    if m.id = mid ∧ m.type = .streaming then
      { m with partialContent := jsOrString fc m.partialContent,
               content := jsOrString fc m.partialContent,
               isComplete := true, canStop := false }
    else m
  | .stopStreaming mid =>
    if m.id = mid ∧ m.type = .streaming then
      { m with isComplete := true, canStop := false,
               partialContent := m.partialContent ++ " [Stopped by user]",
               content := m.content ++ " [Stopped by user]" }
    else m
  | _ => m

/-- The message an action appends to the transcript, if any. -/
def appendedBy (a : AppAction) : List ChatMessage :=
  match a with
  | .addMessage msg => [msg]
  | _ => []

theorem map_id_of {α : Type} (f : α → α) (l : List α) (h : ∀ x, f x = x) :
    l.map f = l := by
  induction l with
  | nil => rfl
  | cons x xs ih => rw [List.map_cons, h x, ih]

theorem entryImage_of_not_targeted (a : AppAction) (m : ChatMessage)
    (h : streamingTargets a m.id = false) : entryImage a m = m := by
  cases a with
  | updateStreamingContent mid pc =>
    simp only [entryImage]
    rw [if_neg]
    intro hc
    rw [hc.1] at h
    simp [streamingTargets] at h
  | completeStreaming mid fc =>
    simp only [entryImage]
    rw [if_neg]
    intro hc
    rw [hc.1] at h
    simp [streamingTargets] at h
  | stopStreaming mid =>
    simp only [entryImage]
    rw [if_neg]
    intro hc
    rw [hc.1] at h
    simp [streamingTargets] at h
  | _ => rfl

theorem reducer_history_sublist (st : AppState) (a : AppAction) :
    List.Sublist (appReducer st a).chatHistory
      (st.chatHistory.map (entryImage a) ++ appendedBy a) := by
  cases a with
  | addMessage msg =>
    simp only [appReducer, appendedBy]
    rw [map_id_of (entryImage (.addMessage msg)) st.chatHistory (fun m => rfl)]
    split
    · exact List.drop_sublist _ _
    · exact List.Sublist.refl _
  | clearHistory => exact List.nil_sublist _
  | updateStreamingContent mid pc =>
    simp only [appReducer, appendedBy, List.append_nil]
    exact List.Sublist.refl _
  | completeStreaming mid fc =>
    simp only [appReducer, appendedBy, List.append_nil]
    exact List.Sublist.refl _
  | stopStreaming mid =>
    simp only [appReducer, appendedBy, List.append_nil]
    exact List.Sublist.refl _
  | removeStreamingMessages ids =>
    simp only [appReducer, appendedBy, List.append_nil]
    rw [map_id_of (entryImage (.removeStreamingMessages ids)) st.chatHistory (fun m => rfl)]
    exact List.filter_sublist _
  | navigateHistory up =>
    simp only [appReducer, appendedBy, List.append_nil]
    rw [map_id_of (entryImage (.navigateHistory up)) st.chatHistory (fun m => rfl)]
    split
    · exact List.Sublist.refl _
    · split
      · split
        · exact List.Sublist.refl _
        · exact List.Sublist.refl _
      · exact List.Sublist.refl _
  | setMode m =>
    simp only [appReducer, appendedBy, List.append_nil]
    rw [map_id_of (entryImage (.setMode m)) st.chatHistory (fun x => rfl)]
  | switchMode =>
    simp only [appReducer, appendedBy, List.append_nil]
    rw [map_id_of (entryImage .switchMode) st.chatHistory (fun x => rfl)]
  | setCurrentInput s =>
    simp only [appReducer, appendedBy, List.append_nil]
    rw [map_id_of (entryImage (.setCurrentInput s)) st.chatHistory (fun x => rfl)]
  | addToCommandHistory s =>
    simp only [appReducer, appendedBy, List.append_nil]
    rw [map_id_of (entryImage (.addToCommandHistory s)) st.chatHistory (fun x => rfl)]
  | startStreaming k mid fid now =>
    simp only [appReducer, appendedBy, List.append_nil]
    rw [map_id_of (entryImage (.startStreaming k mid fid now)) st.chatHistory (fun x => rfl)]
  | setConnectionStatus s =>
    simp only [appReducer, appendedBy, List.append_nil]
    rw [map_id_of (entryImage (.setConnectionStatus s)) st.chatHistory (fun x => rfl)]
  | initializeChatComplete b =>
    simp only [appReducer, appendedBy, List.append_nil]
    rw [map_id_of (entryImage (.initializeChatComplete b)) st.chatHistory (fun x => rfl)]
  | setAuthLoading b =>
    simp only [appReducer, appendedBy, List.append_nil]
    rw [map_id_of (entryImage (.setAuthLoading b)) st.chatHistory (fun x => rfl)]
  | setAuthError e =>
    simp only [appReducer, appendedBy, List.append_nil]
    rw [map_id_of (entryImage (.setAuthError e)) st.chatHistory (fun x => rfl)]
  | setAuthSuccess u t =>
    simp only [appReducer, appendedBy, List.append_nil]
    rw [map_id_of (entryImage (.setAuthSuccess u t)) st.chatHistory (fun x => rfl)]
  | clearAuth =>
    simp only [appReducer, appendedBy, List.append_nil]
    rw [map_id_of (entryImage .clearAuth) st.chatHistory (fun x => rfl)]
  | setAuthenticated b =>
    simp only [appReducer, appendedBy, List.append_nil]
    rw [map_id_of (entryImage (.setAuthenticated b)) st.chatHistory (fun x => rfl)]
  | setUserInfo u =>
    simp only [appReducer, appendedBy, List.append_nil]
    rw [map_id_of (entryImage (.setUserInfo u)) st.chatHistory (fun x => rfl)]

/-! ## Claims about the reducer -/

def msgDone : ChatMessage :=
  { id := "m1", type := .streaming, streamingType := some .response,
    content := "done", partialContent := "done", isComplete := true }

def stWithDone : AppState := { initialState with chatHistory := [msgDone] }

/-- C7 (amended): a finalized (`isComplete = true`) streaming entry is
protected only by id/variant keying, never by `isComplete`: every reducer
action that does not target the entry's id through
update-streaming-content / complete-streaming / stop-streaming maps the
entry to itself, and the new transcript is always a sublist of the
entry-wise image of the old one plus the appended message — but an action
that does target the id still rewrites the finalized entry's content
(the reducer never inspects `isComplete`). -/
theorem C7_finalization_not_terminal :
    (∀ (a : AppAction) (m : ChatMessage), m.isComplete = true →
      streamingTargets a m.id = false → entryImage a m = m) ∧
    (∀ (st : AppState) (a : AppAction),
      List.Sublist (appReducer st a).chatHistory
        (st.chatHistory.map (entryImage a) ++ appendedBy a)) :=
  ⟨fun a m _ h => entryImage_of_not_targeted a m h,
   fun st a => reducer_history_sublist st a⟩

/-- Witness for C7: the finalized entry `msgDone` is untouched by an
update targeting a different id, and the sublist fact at a concrete
state. -/
theorem C7_finalization_not_terminal_witness :
    entryImage (.updateStreamingContent "other" "x") msgDone = msgDone ∧
    List.Sublist (appReducer stWithDone (.clearHistory)).chatHistory
      (stWithDone.chatHistory.map (entryImage .clearHistory) ++ appendedBy .clearHistory) :=
  ⟨C7_finalization_not_terminal.1 (.updateStreamingContent "other" "x") msgDone rfl rfl,
   C7_finalization_not_terminal.2 stWithDone .clearHistory⟩

/-- C7 counterexample: `update-streaming-content` dispatched with the id of
an already-finalized entry (isComplete = true) rewrites its content and
partialContent — finalization is not terminal. -/
theorem C7_counterexample :
    msgDone.isComplete = true ∧
    (appReducer stWithDone (.updateStreamingContent "m1" "overwritten")).chatHistory =
      [{ msgDone with content := "overwritten", partialContent := "overwritten" }] ∧
    ("overwritten" : String) ≠ msgDone.content := by
  exact ⟨rfl, rfl, by decide⟩

/-- C8 (amended): `update-streaming-content` is a no-op when no entry with
the given id carries the `streaming` variant tag (for instance when the
entry was removed or evicted), and it never changes the transcript length;
but an already-finalized entry still carries the `streaming` tag, so —
contrary to the claim's parenthetical — it is NOT protected. -/
theorem C8_update_streaming_content_noop :
    (∀ (st : AppState) (mid pc : String),
      (∀ m ∈ st.chatHistory, m.id = mid → m.type ≠ .streaming) →
      appReducer st (.updateStreamingContent mid pc) = st) ∧
    (∀ (st : AppState) (mid pc : String),
      ((appReducer st (.updateStreamingContent mid pc)).chatHistory).length =
        st.chatHistory.length) := by
  constructor
  · intro st mid pc h
    simp only [appReducer]
    have hmap : st.chatHistory.map (fun msg =>
        if msg.id = mid ∧ msg.type = MsgType.streaming then
          { msg with partialContent := pc, content := pc }
        else msg) = st.chatHistory := by
      rw [List.map_congr_left (g := fun m => m), List.map_id']
      intro m hm
      rw [if_neg]
      intro hc
      exact h m hm hc.1 hc.2
    rw [hmap]
  · intro st mid pc
    simp [appReducer]

/-- Witness for C8: on a state whose only entry is a `system` message with
the targeted id, the dispatch is the identity, and the length is
preserved. -/
theorem C8_update_streaming_content_noop_witness :
    appReducer { initialState with chatHistory :=
        [{ id := "s1", type := .system, content := "note", partialContent := "",
           timestamp := 0, canStop := false, isComplete := false }] }
      (.updateStreamingContent "s1" "x") =
      { initialState with chatHistory :=
        [{ id := "s1", type := .system, content := "note", partialContent := "",
           timestamp := 0, canStop := false, isComplete := false }] } ∧
    ((appReducer stWithDone (.updateStreamingContent "m1" "x")).chatHistory).length =
      stWithDone.chatHistory.length := by
  constructor
  · apply C8_update_streaming_content_noop.1
    intro m hm _
    rcases List.mem_cons.mp hm with rfl | h2
    · intro hc
      cases hc
    · cases h2
  · exact C8_update_streaming_content_noop.2 stWithDone "m1" "x"

def msgFinalHello : ChatMessage :=
  { id := "f", type := .streaming, streamingType := some .thinking,
    content := "hello", partialContent := "hello", isComplete := true }

def stFinalHello : AppState := { initialState with chatHistory := [msgFinalHello] }

/-- C8 counterexample: a transcript entry that is "already finalized"
(isComplete = true) still has the `streaming` type tag, and
update-streaming-content dispatched with its id is NOT a no-op: the
transcript changes. -/
theorem C8_counterexample :
    msgFinalHello.isComplete = true ∧
    (appReducer stFinalHello (.updateStreamingContent "f" "x")).chatHistory ≠
      stFinalHello.chatHistory := by
  exact ⟨rfl, by decide⟩

/-! ## The canStop / active-stream-registry invariant -/

theorem alSet_ne_nil {α : Type} (l : List (String × α)) (k : String) (v : α) :
    alSet l k v ≠ [] := by
  cases l with
  | nil => simp [alSet]
  | cons p rest =>
    obtain ⟨k0, v0⟩ := p
    by_cases h : k0 = k
    · simp [alSet, h]
    · simp [alSet, h]

/-- The invariant relating the can-cancel affordance to the registry. -/
def CanStopInv (st : AppState) : Prop :=
  st.streaming.canStop = true ↔ st.streaming.activeStreams ≠ []

/-- Which actions add or remove registered streams. -/
def touchesStreamRegistry (a : AppAction) : Bool :=
  match a with
  | .startStreaming _ _ _ _ => true
  | .completeStreaming _ _ => true
  | .stopStreaming _ => true
  | .removeStreamingMessages _ => true
  | _ => false

theorem canStopInv_preserved (st : AppState) (a : AppAction) (h : CanStopInv st) :
    CanStopInv (appReducer st a) := by
  cases a with
  | startStreaming k mid fid now =>
    simp only [CanStopInv, appReducer]
    constructor
    · intro _
      exact alSet_ne_nil _ _ _
    · intro _
      trivial
  | completeStreaming mid fc =>
    simp only [CanStopInv, appReducer]
    simp [List.length_pos]
  | stopStreaming mid =>
    simp only [CanStopInv, appReducer]
    simp [List.length_pos]
  | removeStreamingMessages ids =>
    simp only [CanStopInv, appReducer]
    simp [List.length_pos]
  | navigateHistory up =>
    simp only [CanStopInv, appReducer]
    split
    · exact h
    · split
      · split
        · exact h
        · exact h
      · exact h
  | addMessage msg => exact h
  | _ => exact h

theorem canStopInv_foldl (acts : List AppAction) :
    ∀ (st : AppState), CanStopInv st → CanStopInv (acts.foldl appReducer st) := by
  induction acts with
  | nil => intro st h; exact h
  | cons a rest ih =>
    intro st h
    exact ih _ (canStopInv_preserved st a h)

/-- C10: from the initial state, after every sequence of reducer actions
`canStop` is true exactly when the active-stream registry is non-empty;
the four registry-touching actions re-establish the equivalence, and every
other action leaves both the registry and the flag unchanged. -/
theorem C10_canStop_iff_active_streams :
    (∀ acts : List AppAction,
      (acts.foldl appReducer initialState).streaming.canStop = true ↔
      (acts.foldl appReducer initialState).streaming.activeStreams ≠ []) ∧
    (∀ (st : AppState) (a : AppAction), touchesStreamRegistry a = false →
      (appReducer st a).streaming.activeStreams = st.streaming.activeStreams ∧
      (appReducer st a).streaming.canStop = st.streaming.canStop) := by
  constructor
  · intro acts
    exact canStopInv_foldl acts initialState (by simp [CanStopInv, initialState])
  · intro st a hna
    cases a with
    | startStreaming k mid fid now => simp [touchesStreamRegistry] at hna
    | completeStreaming mid fc => simp [touchesStreamRegistry] at hna
    | stopStreaming mid => simp [touchesStreamRegistry] at hna
    | removeStreamingMessages ids => simp [touchesStreamRegistry] at hna
    | navigateHistory up =>
      simp only [appReducer]
      split
      · exact ⟨rfl, rfl⟩
      · split
        · split
          · exact ⟨rfl, rfl⟩
          · exact ⟨rfl, rfl⟩
        · exact ⟨rfl, rfl⟩
    | _ => exact ⟨rfl, rfl⟩

/-- Witness for C10: the invariant evaluated on a concrete action sequence
(start one stream, update it, complete it), and the frame property for a
non-streaming action. -/
theorem C10_canStop_iff_active_streams_witness :
    (([.startStreaming .response "m1" "u1" 0,
       .updateStreamingContent "m1" "hi",
       .completeStreaming "m1" (some "hi")] :
        List AppAction).foldl appReducer initialState).streaming.canStop = false ∧
    (appReducer initialState (.setCurrentInput "abc")).streaming.activeStreams =
      initialState.streaming.activeStreams := by
  constructor
  · have h := (C10_canStop_iff_active_streams.1
      [.startStreaming .response "m1" "u1" 0,
       .updateStreamingContent "m1" "hi",
       .completeStreaming "m1" (some "hi")])
    by_cases hc : (([.startStreaming .response "m1" "u1" 0,
       .updateStreamingContent "m1" "hi",
       .completeStreaming "m1" (some "hi")] :
        List AppAction).foldl appReducer initialState).streaming.canStop = true
    · exact absurd (h.mp hc) (by decide)
    · simpa using hc
  · exact (C10_canStop_iff_active_streams.2 initialState (.setCurrentInput "abc") rfl).1

/-! ## Claims about stream finalisation -/

/-- C9 (amended): the stream timeout is 30s, and when it fires the
generator's internal controller aborts; the resulting `AbortError` is
swallowed (the generator returns silently), so `startStream` finalises the
session through `completeStreaming` — exactly the same dispatch as a
natural completion — with no timeout classification and no retry; a
user-initiated stop (the hook's own abort signal) instead finalises
through `stopStreaming`.  The classifier would map a `TimeoutError` to
`timeout`, but this path never invokes it. -/
theorem C9_timeout_finalization :
    DEFAULT_STREAM_TIMEOUT = 30000 ∧
    chatStreamCatch "AbortError" "This operation was aborted" = .abortedSilent ∧
    finalizeStream (chatStreamCatch "AbortError" "This operation was aborted") false =
      .completeStreamingDispatch ∧
    finalizeStream .normalEnd false = .completeStreamingDispatch ∧
    finalizeStream (chatStreamCatch "AbortError" "This operation was aborted") true =
      .stopStreamingDispatch ∧
    categorizeError "TimeoutError" "stream timeout" = .timeout :=
  ⟨rfl, rfl, rfl, rfl, rfl, rfl⟩

/-- C9 counterexample: after a timeout-triggered abort (external signal
never fired), the finalisation dispatch equals the natural-completion
dispatch — the entry's final annotation does not record a timeout-classified
failure, and no retry path exists (the dispatch is not even the error
branch), contradicting "treated identically to a timeout-classified failure
... preserved in the entry's final annotation and in whether a retry is
attempted". -/
theorem C9_counterexample :
    finalizeStream (chatStreamCatch "AbortError" "This operation was aborted") false =
      finalizeStream .normalEnd false ∧
    finalizeStream (chatStreamCatch "AbortError" "This operation was aborted") false =
      .completeStreamingDispatch ∧
    FinalizeAction.completeStreamingDispatch ≠ .stopStreamingDispatch ∧
    FinalizeAction.completeStreamingDispatch ≠ .errorSystemMessage "stream timeout" := by
  refine ⟨rfl, rfl, by decide, by decide⟩
